import Mathlib

/-!
Verification of the four-pillars ("saju") calculation engine.

The development shallowly embeds the two Python modules of the repository:

* `korea_tz_history.py` — the historical Korean standard-time table, the
  daylight-saving table, the offset lookups and the wall-clock → true-solar-time
  conversion;
* `app.py` (core, non-UI part) — sexagenary Stem/Branch arithmetic, the Julian
  day number, solar-term root finding, the four-pillars assembly, the pattern
  ("격") classifier and the decade-cycle start age.

Modelling conventions:

* Python `int` is `Int`; Python `//` and `%` (floor division, sign of the
  divisor) are `pydiv` (`Int.fdiv`) and `pymod` (`Int.emod`; all moduli in this
  code are positive, where `Int.emod` agrees with Python `%`).
* Python `float` quantities (angles, fractional days, seconds) are modelled as
  exact rationals `ℚ`.  `float.__mod__` with a positive modulus is the exact
  `pyFmod` below.  The constants `365.25` and `30.6001` that Python truncates
  with `int(...)` are embedded as the corresponding exact integer divisions:
  on every reachable argument the float computation and the rational one
  truncate to the same integer.
* `datetime.date` is the field triple `PyDate`; `datetime.datetime` is
  `PyDateTime`: a date, the seconds elapsed in the day (`ℚ`, so that the
  microsecond field is the fractional part), and a tzinfo tag.  `timedelta`
  arithmetic is exact-rational second arithmetic with day carries.
* External capabilities that the code imports — the `ephem`-or-Meeus solar
  longitude strategy, the `ZoneInfo("Asia/Seoul")` OS timezone database, and
  the `math.sin`/`math.cos`/`math.radians` float routines (transcendental, so
  outside the decidable fragment) — are fields of an explicit `Env` record
  and every theorem quantifies over them.
* Streamlit's ambient `st.session_state` (read by `four_pillars_from_solar`
  through keys `apply_solar` and `longitude`) is the explicit `Session`
  record, which also carries arbitrary further ambient entries.
-/

/-- Python floor division `//` on integers (sign of the divisor). -/
def pydiv (a b : Int) : Int := Int.fdiv a b

/-- Python `%` on integers.  All divisors in the embedded code are positive,
where Python `%` and `Int.emod` agree. -/
def pymod (a b : Int) : Int := Int.emod a b

/-- Python `%` on floats with nonzero divisor, modelled exactly on `ℚ`:
`a % b = a - b * (a // b)` with `//` the floor. -/
def pyFmod (a b : ℚ) : ℚ := a - b * (⌊a / b⌋ : ℤ)

/-! ## Proleptic Gregorian calendar (`datetime.date`) -/

/-- A Python `datetime.date`: plain year/month/day fields. -/
structure PyDate where
  y : Int
  m : Int
  d : Int
deriving DecidableEq, Repr

/-- Gregorian leap-year rule (as used by Python's `calendar`/`datetime`). -/
def isLeapYear (y : Int) : Bool := y % 4 = 0 && (y % 100 != 0 || y % 400 = 0)

/-- Number of days in month `m` of year `y`. -/
def monthLen (y m : Int) : Int :=
  if m = 1 then 31 else if m = 2 then (if isLeapYear y then 29 else 28)
  else if m = 3 then 31 else if m = 4 then 30 else if m = 5 then 31
  else if m = 6 then 30 else if m = 7 then 31 else if m = 8 then 31
  else if m = 9 then 30 else if m = 10 then 31 else if m = 11 then 30 else 31

theorem monthLen_bounds (y m : Int) : 28 ≤ monthLen y m ∧ monthLen y m ≤ 31 := by
  unfold monthLen
  repeat' split
  all_goals omega

/-- A date representable by Python's `datetime.date` (years 1–9999). -/
def PyDate.valid (t : PyDate) : Prop :=
  1 ≤ t.y ∧ t.y ≤ 9999 ∧ 1 ≤ t.m ∧ t.m ≤ 12 ∧ 1 ≤ t.d ∧ t.d ≤ monthLen t.y t.m

instance : DecidablePred PyDate.valid := fun t => by
  unfold PyDate.valid; infer_instance

/-- Successor date (the effect of `+ timedelta(days=1)` on the date part). -/
def nextDay (t : PyDate) : PyDate :=
  if t.d < monthLen t.y t.m then ⟨t.y, t.m, t.d + 1⟩
  else if t.m < 12 then ⟨t.y, t.m + 1, 1⟩
  else ⟨t.y + 1, 1, 1⟩

/-- Predecessor date (the effect of `- timedelta(days=1)` on the date part). -/
def prevDay (t : PyDate) : PyDate :=
  if 1 < t.d then ⟨t.y, t.m, t.d - 1⟩
  else if 1 < t.m then ⟨t.y, t.m - 1, monthLen t.y (t.m - 1)⟩
  else ⟨t.y - 1, 12, 31⟩

/-- Add `n` days to a date. -/
def addDays : Nat → PyDate → PyDate
  | 0, t => t
  | n + 1, t => nextDay (addDays n t)

/-- Subtract `n` days from a date. -/
def subDays : Nat → PyDate → PyDate
  | 0, t => t
  | n + 1, t => prevDay (subDays n t)

/-- Add a signed number of days to a date. -/
def addDaysZ (k : Int) (t : PyDate) : PyDate :=
  if 0 ≤ k then addDays k.toNat t else subDays (-k).toNat t

/-- Python `date` comparison (lexicographic on the fields; for valid dates this
is calendar order). -/
def PyDate.le (a b : PyDate) : Prop :=
  a.y < b.y ∨ (a.y = b.y ∧ (a.m < b.m ∨ (a.m = b.m ∧ a.d ≤ b.d)))

instance : DecidableRel PyDate.le := fun a b => by
  unfold PyDate.le; infer_instance

/-- Cumulative day count before month `m` in a non-leap year
(Python `datetime._days_before_month` without the leap adjustment). -/
def daysBeforeMonthCum (m : Int) : Int :=
  if m = 1 then 0 else if m = 2 then 31 else if m = 3 then 59
  else if m = 4 then 90 else if m = 5 then 120 else if m = 6 then 151
  else if m = 7 then 181 else if m = 8 then 212 else if m = 9 then 243
  else if m = 10 then 273 else if m = 11 then 304 else 334

/-- Days in year `y` strictly before month `m` (Python `_days_before_month`). -/
def daysBeforeMonth (y m : Int) : Int :=
  daysBeforeMonthCum m + (if 2 < m ∧ isLeapYear y then 1 else 0)

/-- Day of the year of a date (`timetuple().tm_yday`). -/
def dayOfYear (t : PyDate) : Int := daysBeforeMonth t.y t.m + t.d

/-- Days before January 1st of year `y` (Python `datetime._days_before_year`). -/
def daysBeforeYear (y : Int) : Int :=
  365 * (y - 1) + pydiv (y - 1) 4 - pydiv (y - 1) 100 + pydiv (y - 1) 400

/-- Python `date.toordinal`: day count with `0001-01-01 = 1`. -/
def PyDate.toOrdinal (t : PyDate) : Int :=
  daysBeforeYear t.y + daysBeforeMonth t.y t.m + t.d

/-! ## `datetime.datetime` with tzinfo -/

/-- The tzinfo values appearing in the embedded code: naive, `timezone.utc`,
`ZoneInfo("Asia/Seoul")`, or a fixed `timezone(timedelta(minutes=o))`. -/
inductive TzTag where
  | naive : TzTag
  | utcTz : TzTag
  | seoulTz : TzTag
  | fixedTz (offsetMin : ℚ) : TzTag
deriving DecidableEq, Repr

/-- A Python `datetime.datetime`: its date, the seconds elapsed in the day
(hour, minute, second and microsecond combined, `0 ≤ sod < 86400` for values
built by the embedded code), and its tzinfo. -/
structure PyDateTime where
  date : PyDate
  sod : ℚ
  tz : TzTag
deriving DecidableEq, Repr

/-- The injected external capabilities of the program: the OS timezone
database consulted by `ZoneInfo("Asia/Seoul").utcoffset`, the solar-longitude
provider (`ephem` if importable, else the built-in Meeus approximation — a
pure instant→degrees function per the spec), and the `math` float
trigonometry used by the equation of time. -/
structure Env where
  seoulOffsetMin : PyDateTime → ℚ
  solarLongitudeDeg : PyDateTime → ℚ
  sinF : ℚ → ℚ
  cosF : ℚ → ℚ
  radiansF : ℚ → ℚ

/-- Hour field of a datetime. -/
def hourOf (t : PyDateTime) : Int := ⌊t.sod / 3600⌋

/-- Minute field of a datetime. -/
def minuteOf (t : PyDateTime) : Int := pymod ⌊t.sod / 60⌋ 60

/-- The `utcoffset()` of a datetime, in seconds (0 for naive — naive datetimes
are never converted in the embedded flows). -/
def utcOffsetSeconds (env : Env) (t : PyDateTime) : ℚ :=
  match t.tz with
  | .naive => 0
  | .utcTz => 0
  | .seoulTz => env.seoulOffsetMin t * 60
  | .fixedTz o => o * 60

/-- Add `q` seconds to a datetime (`+ timedelta(seconds=q)`), carrying whole
days into the date. -/
def addSeconds (q : ℚ) (t : PyDateTime) : PyDateTime :=
  let tot := t.sod + q
  let carry : Int := ⌊tot / 86400⌋
  ⟨addDaysZ carry t.date, tot - 86400 * carry, t.tz⟩

/-- Add a signed number of whole days (`+ timedelta(days=k)`). -/
def addDaysRelZ (k : Int) (t : PyDateTime) : PyDateTime :=
  ⟨addDaysZ k t.date, t.sod, t.tz⟩

/-- Absolute position of a datetime in seconds (ordinal-based; for aware
datetimes the utcoffset is subtracted, which is how Python compares and
subtracts aware datetimes). -/
def absSeconds (env : Env) (t : PyDateTime) : ℚ :=
  (t.date.toOrdinal : ℚ) * 86400 + t.sod - utcOffsetSeconds env t

/-- Python `datetime` `<=` (for naive pairs this is field order via the
ordinal; for aware pairs it is instant order). -/
def dtLe (env : Env) (a b : PyDateTime) : Prop :=
  absSeconds env a ≤ absSeconds env b

/-- Python `datetime` `<`. -/
def dtLt (env : Env) (a b : PyDateTime) : Prop :=
  absSeconds env a < absSeconds env b

instance (env : Env) : DecidableRel (dtLe env) := fun a b => by
  unfold dtLe; infer_instance

instance (env : Env) : DecidableRel (dtLt env) := fun a b => by
  unfold dtLt; infer_instance

/-- Difference of two datetimes in seconds (`(a - b).total_seconds()`). -/
def diffSeconds (env : Env) (a b : PyDateTime) : ℚ :=
  absSeconds env a - absSeconds env b

/-- Convert an aware datetime to UTC (`astimezone(timezone.utc)`). -/
def astimezoneUtc (env : Env) (t : PyDateTime) : PyDateTime :=
  let s := addSeconds (-(utcOffsetSeconds env t)) t
  ⟨s.date, s.sod, .utcTz⟩

/-- Drop the sub-second part of a datetime (`replace(microsecond=0)`; the
fractional part of `sod` is exactly the microsecond field). -/
def truncSecond (t : PyDateTime) : PyDateTime :=
  ⟨t.date, ((⌊t.sod⌋ : Int) : ℚ), t.tz⟩

/-! ## `korea_tz_history.py` -/

/-- One standard-time era (`StandardTimePeriod`).  The Python field `end` is a
Lean keyword and is rendered `stop`. -/
structure StandardTimePeriod where
  start : PyDate
  stop : PyDate
  meridian : ℚ
  utc_offset_min : Int
  label : String
deriving DecidableEq, Repr

/-- Era 1 of `_PERIODS` (pre-1898, Beijing meridian). -/
def era0 : StandardTimePeriod := ⟨⟨1, 1, 1⟩, ⟨1897, 12, 31⟩, 120, 480, "북경(北京) 표준시"⟩

/-- Era 2 of `_PERIODS` (1898–1910, Seoul meridian). -/
def era1 : StandardTimePeriod := ⟨⟨1898, 1, 1⟩, ⟨1910, 3, 31⟩, 127.5, 510, "한성(서울) 표준시"⟩

/-- Era 3 of `_PERIODS` (1910–1954, Tokyo meridian). -/
def era2 : StandardTimePeriod := ⟨⟨1910, 4, 1⟩, ⟨1954, 3, 20⟩, 135, 540, "동경(東京) 표준시"⟩

/-- Era 4 of `_PERIODS` (1954–1961, Seoul meridian restored). -/
def era3 : StandardTimePeriod := ⟨⟨1954, 3, 21⟩, ⟨1961, 8, 9⟩, 127.5, 510, "서울 표준시 (복원)"⟩

/-- Era 5 of `_PERIODS` (1961 onward, Tokyo meridian, open-ended in intent). -/
def era4 : StandardTimePeriod := ⟨⟨1961, 8, 10⟩, ⟨9999, 12, 31⟩, 135, 540, "동경(東京) 표준시 (현행)"⟩

/-- The fixed era table `_PERIODS`. -/
def PERIODS : List StandardTimePeriod := [era0, era1, era2, era3, era4]

/-- One daylight-saving record (`DSTRecord`). -/
structure DSTRecord where
  year : Int
  start : PyDate
  stop : PyDate
  advance_min : Int
deriving DecidableEq, Repr

/-- The fixed daylight-saving table `_DST_RECORDS`. -/
def DST_RECORDS : List DSTRecord :=
  [⟨1948, ⟨1948, 6, 1⟩, ⟨1948, 9, 12⟩, 60⟩,
   ⟨1949, ⟨1949, 4, 3⟩, ⟨1949, 9, 10⟩, 60⟩,
   ⟨1950, ⟨1950, 4, 1⟩, ⟨1950, 9, 9⟩, 60⟩,
   ⟨1951, ⟨1951, 5, 6⟩, ⟨1951, 9, 8⟩, 60⟩,
   ⟨1954, ⟨1954, 3, 21⟩, ⟨1954, 5, 5⟩, 60⟩,
   ⟨1955, ⟨1955, 5, 5⟩, ⟨1955, 9, 9⟩, 60⟩,
   ⟨1956, ⟨1956, 5, 20⟩, ⟨1956, 9, 30⟩, 60⟩,
   ⟨1957, ⟨1957, 5, 5⟩, ⟨1957, 9, 22⟩, 60⟩,
   ⟨1958, ⟨1958, 5, 4⟩, ⟨1958, 9, 21⟩, 60⟩,
   ⟨1959, ⟨1959, 5, 3⟩, ⟨1959, 9, 20⟩, 60⟩,
   ⟨1960, ⟨1960, 5, 1⟩, ⟨1960, 9, 18⟩, 60⟩,
   ⟨1987, ⟨1987, 5, 10⟩, ⟨1987, 10, 11⟩, 60⟩,
   ⟨1988, ⟨1988, 5, 8⟩, ⟨1988, 10, 9⟩, 60⟩]

/-- The containment test `p.start <= d <= p.end` of the Python interval scans. -/
def coversP (p : StandardTimePeriod) (d : PyDate) : Prop :=
  PyDate.le p.start d ∧ PyDate.le d p.stop

instance : ∀ p d, Decidable (coversP p d) := fun p d => by
  unfold coversP; infer_instance

/-- The linear scan inside `get_standard_period`. -/
def periodLookup (d : PyDate) : List StandardTimePeriod → Option StandardTimePeriod
  | [] => none
  | p :: r => if coversP p d then some p else periodLookup d r

/-- `get_standard_period`: first era containing the date, falling back to the
last entry of the table. -/
def get_standard_period (d : PyDate) : StandardTimePeriod :=
  match periodLookup d PERIODS with
  | some p => p
  | none => PERIODS.getLastD ⟨⟨1, 1, 1⟩, ⟨9999, 12, 31⟩, 135, 540, ""⟩

/-- `get_dst_record`: first daylight-saving record containing the date. -/
def get_dst_record (d : PyDate) : Option DSTRecord :=
  DST_RECORDS.find? (fun r => decide (PyDate.le r.start d ∧ PyDate.le d r.stop))

/-- `is_dst_active`. -/
def is_dst_active (d : PyDate) : Prop := get_dst_record d ≠ none

/-- `get_wall_clock_utc_offset`: base era offset plus the daylight advance. -/
def get_wall_clock_utc_offset (d : PyDate) : Int :=
  (get_standard_period d).utc_offset_min +
    (match get_dst_record d with
     | some r => r.advance_min
     | none => 0)

/-- `equation_of_time_minutes` (low-order harmonic formula; trigonometry via
the abstract `math` float routines in `Env`). -/
def equation_of_time_minutes (env : Env) (dt_utc : PyDateTime) : ℚ :=
  let doy := dayOfYear dt_utc.date
  let B := env.radiansF ((360 / 365) * ((doy : ℚ) - 81))
  (987 / 100) * env.sinF (2 * B) - (753 / 100) * env.cosF B - (3 / 2) * env.sinF B

/-- `wall_to_true_solar_time`: wall clock → UTC → local mean time → true solar
time; returns a naive datetime with the microseconds dropped. -/
def wall_to_true_solar_time (env : Env) (dt_wall : PyDateTime) (longitude : ℚ)
    (apply_eot : Bool) : PyDateTime :=
  let d := dt_wall.date
  let dt_utc :=
    if dt_wall.tz ≠ TzTag.naive then astimezoneUtc env dt_wall
    else
      let wall_offset_min := get_wall_clock_utc_offset d
      astimezoneUtc env ⟨dt_wall.date, dt_wall.sod, .fixedTz (wall_offset_min : ℚ)⟩
  let dt_lmt := addSeconds (longitude * 4 * 60) dt_utc
  let dt_tst :=
    if apply_eot then addSeconds (equation_of_time_minutes env dt_utc * 60) dt_lmt
    else dt_lmt
  truncSecond ⟨dt_tst.date, dt_tst.sod, .naive⟩

/-! ## Claim C8 — the era table partitions the timeline -/

theorem era0_mem : era0 ∈ PERIODS := by simp [PERIODS]

theorem era1_mem : era1 ∈ PERIODS := by simp [PERIODS]

theorem era2_mem : era2 ∈ PERIODS := by simp [PERIODS]

theorem era3_mem : era3 ∈ PERIODS := by simp [PERIODS]

theorem era4_mem : era4 ∈ PERIODS := by simp [PERIODS]

set_option maxHeartbeats 1600000 in
/-- C8: the standard-time eras are contiguous (each era starts the day after
the previous one ends), every representable date is covered by exactly one
era and `get_standard_period` returns a covering member of the table, and a
date covered by no era (beyond the table) falls back to the last era. -/
theorem era_table_partitions :
    (era1.start = nextDay era0.stop ∧ era2.start = nextDay era1.stop ∧
      era3.start = nextDay era2.stop ∧ era4.start = nextDay era3.stop) ∧
    (∀ d : PyDate, d.valid →
      (∃! p : StandardTimePeriod, p ∈ PERIODS ∧ coversP p d) ∧
      coversP (get_standard_period d) d ∧ get_standard_period d ∈ PERIODS) ∧
    (∀ d : PyDate, (∀ p ∈ PERIODS, ¬ coversP p d) → get_standard_period d = era4) := by
  refine ⟨by decide, ?_, ?_⟩
  · intro d hv
    obtain ⟨h1, h2, h3, h4, h5, h6⟩ := hv
    have hml : monthLen d.y d.m ≤ 31 := (monthLen_bounds d.y d.m).2
    have hcase :
        (coversP era0 d ∧ ¬ coversP era1 d ∧ ¬ coversP era2 d ∧
          ¬ coversP era3 d ∧ ¬ coversP era4 d) ∨
        (¬ coversP era0 d ∧ coversP era1 d ∧ ¬ coversP era2 d ∧
          ¬ coversP era3 d ∧ ¬ coversP era4 d) ∨
        (¬ coversP era0 d ∧ ¬ coversP era1 d ∧ coversP era2 d ∧
          ¬ coversP era3 d ∧ ¬ coversP era4 d) ∨
        (¬ coversP era0 d ∧ ¬ coversP era1 d ∧ ¬ coversP era2 d ∧
          coversP era3 d ∧ ¬ coversP era4 d) ∨
        (¬ coversP era0 d ∧ ¬ coversP era1 d ∧ ¬ coversP era2 d ∧
          ¬ coversP era3 d ∧ coversP era4 d) := by
      simp only [coversP, PyDate.le, era0, era1, era2, era3, era4]; omega
    have huniq : ∀ ek : StandardTimePeriod, coversP ek d →
        (∀ p ∈ PERIODS, p ≠ ek → ¬ coversP p d) →
        ek ∈ PERIODS →
        ∃! p : StandardTimePeriod, p ∈ PERIODS ∧ coversP p d := by
      intro ek hcov hothers hmem
      refine ⟨ek, ⟨hmem, hcov⟩, ?_⟩
      intro q ⟨hqmem, hqcov⟩
      by_contra hne
      exact hothers q hqmem hne hqcov
    rcases hcase with ⟨c0, c1, c2, c3, c4⟩ | ⟨c0, c1, c2, c3, c4⟩ |
        ⟨c0, c1, c2, c3, c4⟩ | ⟨c0, c1, c2, c3, c4⟩ | ⟨c0, c1, c2, c3, c4⟩
    · have hval : get_standard_period d = era0 := by
        unfold get_standard_period
        simp only [PERIODS, periodLookup]
        rw [if_pos c0]
      refine ⟨huniq era0 c0 ?_ era0_mem, by rw [hval]; exact c0, by rw [hval]; exact era0_mem⟩
      intro p hp hne
      simp only [PERIODS, List.mem_cons, List.not_mem_nil, or_false] at hp
      rcases hp with rfl | rfl | rfl | rfl | rfl
      · exact absurd rfl hne
      · exact c1
      · exact c2
      · exact c3
      · exact c4
    · have hval : get_standard_period d = era1 := by
        unfold get_standard_period
        simp only [PERIODS, periodLookup]
        rw [if_neg c0, if_pos c1]
      refine ⟨huniq era1 c1 ?_ era1_mem, by rw [hval]; exact c1, by rw [hval]; exact era1_mem⟩
      intro p hp hne
      simp only [PERIODS, List.mem_cons, List.not_mem_nil, or_false] at hp
      rcases hp with rfl | rfl | rfl | rfl | rfl
      · exact c0
      · exact absurd rfl hne
      · exact c2
      · exact c3
      · exact c4
    · have hval : get_standard_period d = era2 := by
        unfold get_standard_period
        simp only [PERIODS, periodLookup]
        rw [if_neg c0, if_neg c1, if_pos c2]
      refine ⟨huniq era2 c2 ?_ era2_mem, by rw [hval]; exact c2, by rw [hval]; exact era2_mem⟩
      intro p hp hne
      simp only [PERIODS, List.mem_cons, List.not_mem_nil, or_false] at hp
      rcases hp with rfl | rfl | rfl | rfl | rfl
      · exact c0
      · exact c1
      · exact absurd rfl hne
      · exact c3
      · exact c4
    · have hval : get_standard_period d = era3 := by
        unfold get_standard_period
        simp only [PERIODS, periodLookup]
        rw [if_neg c0, if_neg c1, if_neg c2, if_pos c3]
      refine ⟨huniq era3 c3 ?_ era3_mem, by rw [hval]; exact c3, by rw [hval]; exact era3_mem⟩
      intro p hp hne
      simp only [PERIODS, List.mem_cons, List.not_mem_nil, or_false] at hp
      rcases hp with rfl | rfl | rfl | rfl | rfl
      · exact c0
      · exact c1
      · exact c2
      · exact absurd rfl hne
      · exact c4
    · have hval : get_standard_period d = era4 := by
        unfold get_standard_period
        simp only [PERIODS, periodLookup]
        rw [if_neg c0, if_neg c1, if_neg c2, if_neg c3, if_pos c4]
      refine ⟨huniq era4 c4 ?_ era4_mem, by rw [hval]; exact c4, by rw [hval]; exact era4_mem⟩
      intro p hp hne
      simp only [PERIODS, List.mem_cons, List.not_mem_nil, or_false] at hp
      rcases hp with rfl | rfl | rfl | rfl | rfl
      · exact c0
      · exact c1
      · exact c2
      · exact c3
      · exact absurd rfl hne
  · intro d hnone
    have h0 := hnone era0 era0_mem
    have h1 := hnone era1 era1_mem
    have h2 := hnone era2 era2_mem
    have h3 := hnone era3 era3_mem
    have h4 := hnone era4 era4_mem
    unfold get_standard_period
    simp only [PERIODS, periodLookup]
    rw [if_neg h0, if_neg h1, if_neg h2, if_neg h3, if_neg h4]
    rfl

/-- Witness for C8 at the concrete date 1960-06-15. -/
theorem era_table_partitions_witness :
    (∃! p : StandardTimePeriod, p ∈ PERIODS ∧ coversP p ⟨1960, 6, 15⟩) ∧
      coversP (get_standard_period ⟨1960, 6, 15⟩) ⟨1960, 6, 15⟩ ∧
      get_standard_period ⟨1960, 6, 15⟩ ∈ PERIODS :=
  era_table_partitions.2.1 ⟨1960, 6, 15⟩ (by decide)

/-! ## Claim C9 — historical offsets for 1900-06-15 and 1955-06-15 -/

/-- C9: on 1900-06-15 the wall-clock UTC offset is 510 minutes (the 1898–1910
UTC+8:30 era, no daylight-saving record active); on 1955-06-15 it is 570
minutes (UTC+8:30 base plus the active 1955 daylight record of +60 minutes). -/
theorem historical_offsets_1900_1955 :
    get_wall_clock_utc_offset ⟨1900, 6, 15⟩ = 510 ∧
    get_dst_record ⟨1900, 6, 15⟩ = none ∧
    (get_standard_period ⟨1900, 6, 15⟩).start = ⟨1898, 1, 1⟩ ∧
    (get_standard_period ⟨1900, 6, 15⟩).utc_offset_min = 510 ∧
    get_wall_clock_utc_offset ⟨1955, 6, 15⟩ = 570 ∧
    (get_standard_period ⟨1955, 6, 15⟩).utc_offset_min = 510 ∧
    get_dst_record ⟨1955, 6, 15⟩ = some ⟨1955, ⟨1955, 5, 5⟩, ⟨1955, 9, 9⟩, 60⟩ := by
  decide

/-! ## Sexagenary symbols and relation tables (`app.py`) -/

/-- The 10 Heavenly Stems 갑 을 병 정 무 기 경 신 임 계. -/
inductive Gan where
  | gap | eul | byeong | jeong | mu | gi | gyeong | sin | im | gye
deriving DecidableEq, Repr

/-- The 12 Earthly Branches 자 축 인 묘 진 사 오 미 신 유 술 해. -/
inductive Ji where
  | ja | chuk | inn | myo | jin | sa | o | mi | sin | yu | sul | hae
deriving DecidableEq, Repr

/-- The 5 Elements 목 화 토 금 수. -/
inductive Elem where
  | mok | hwa | toh | geum | su
deriving DecidableEq, Repr

/-- Yin/yang polarity 양 / 음. -/
inductive Pol where
  | yang | eum
deriving DecidableEq, Repr

/-- Korean name of a Stem (the `CHEONGAN` symbols). -/
def ganName : Gan → String
  | .gap => "갑" | .eul => "을" | .byeong => "병" | .jeong => "정" | .mu => "무"
  | .gi => "기" | .gyeong => "경" | .sin => "신" | .im => "임" | .gye => "계"

/-- Korean name of a Branch (the `JIJI` symbols). -/
def jiName : Ji → String
  | .ja => "자" | .chuk => "축" | .inn => "인" | .myo => "묘" | .jin => "진"
  | .sa => "사" | .o => "오" | .mi => "미" | .sin => "신" | .yu => "유"
  | .sul => "술" | .hae => "해"

/-- `STEM_ELEM`: the Element of each Stem. -/
def STEM_ELEM : Gan → Elem
  | .gap => .mok | .eul => .mok | .byeong => .hwa | .jeong => .hwa | .mu => .toh
  | .gi => .toh | .gyeong => .geum | .sin => .geum | .im => .su | .gye => .su

/-- `STEM_YY`: the polarity of each Stem. -/
def STEM_YY : Gan → Pol
  | .gap => .yang | .eul => .eum | .byeong => .yang | .jeong => .eum | .mu => .yang
  | .gi => .eum | .gyeong => .yang | .sin => .eum | .im => .yang | .gye => .eum

/-- `BRANCH_MAIN`: the main (governing) Stem of each Branch. -/
def BRANCH_MAIN : Ji → Gan
  | .ja => .gye | .chuk => .gi | .inn => .gap | .myo => .eul | .jin => .mu
  | .sa => .byeong | .o => .jeong | .mi => .gi | .sin => .gyeong | .yu => .sin
  | .sul => .mu | .hae => .im

/-- `ELEM_PRODUCE`: the production (생) cycle. -/
def ELEM_PRODUCE : Elem → Elem
  | .mok => .hwa | .hwa => .toh | .toh => .geum | .geum => .su | .su => .mok

/-- `ELEM_CONTROL`: the control (극) cycle. -/
def ELEM_CONTROL : Elem → Elem
  | .mok => .toh | .hwa => .geum | .toh => .su | .geum => .mok | .su => .hwa

/-- `ELEM_OVER_ME`: the inverse of `ELEM_CONTROL` (the element that controls
the argument), as the Python dict comprehension computes it. -/
def ELEM_OVER_ME : Elem → Elem
  | .toh => .mok | .geum => .hwa | .su => .toh | .mok => .geum | .hwa => .su

/-- `ELEM_PROD_ME`: the inverse of `ELEM_PRODUCE` (the element producing the
argument). -/
def ELEM_PROD_ME : Elem → Elem
  | .hwa => .mok | .toh => .hwa | .geum => .toh | .su => .geum | .mok => .su

/-- `SAMHAP`: the four triadic combinations, keyed by their Element.  The
Python dict has no 토 key; that value is never queried (`MONTH_SAMHAP` never
yields 토), so the 토 case is the empty list. -/
def SAMHAP : Elem → List Ji
  | .hwa => [.inn, .o, .sul]
  | .mok => [.hae, .myo, .mi]
  | .su => [.sin, .ja, .jin]
  | .geum => [.sa, .yu, .chuk]
  | .toh => []

/-- `MONTH_SAMHAP`: the triad Element of each Branch. -/
def MONTH_SAMHAP : Ji → Elem
  | .inn => .hwa | .o => .hwa | .sul => .hwa
  | .hae => .mok | .myo => .mok | .mi => .mok
  | .sin => .su | .ja => .su | .jin => .su
  | .sa => .geum | .yu => .geum | .chuk => .geum

/-- `BRANCH_HIDDEN`: the ordered hidden Stems of each Branch. -/
def BRANCH_HIDDEN : Ji → List Gan
  | .ja => [.im, .gye]
  | .chuk => [.gye, .sin, .gi]
  | .inn => [.mu, .byeong, .gap]
  | .myo => [.gap, .eul]
  | .jin => [.eul, .gye, .mu]
  | .sa => [.mu, .gyeong, .byeong]
  | .o => [.byeong, .gi, .jeong]
  | .mi => [.jeong, .eul, .gi]
  | .sin => [.mu, .im, .gyeong]
  | .yu => [.gyeong, .sin]
  | .sul => [.sin, .jeong, .mu]
  | .hae => [.mu, .gap, .im]

/-- `stems_of_element`: the two Stems of an Element, in yang-first order. -/
def stems_of_element : Elem → List Gan
  | .mok => [.gap, .eul] | .hwa => [.byeong, .jeong] | .toh => [.mu, .gi]
  | .geum => [.gyeong, .sin] | .su => [.im, .gye]

/-- `stem_with_polarity`: the Stem of the given Element with the given
polarity (`a if parity == 양 else b`).  The catch-all is unreachable:
`stems_of_element` always returns two Stems. -/
def stem_with_polarity (e : Elem) (p : Pol) : Gan :=
  match stems_of_element e with
  | a :: b :: _ => if p = Pol.yang then a else b
  | _ => Gan.gap

/-- The opposite polarity (`'음' if p == '양' else '양'`). -/
def oppPol (p : Pol) : Pol := if p = Pol.yang then Pol.eum else Pol.yang

/-- `is_yang_stem`. -/
def is_yang_stem (g : Gan) : Prop := g ∈ [Gan.gap, Gan.byeong, Gan.mu, Gan.gyeong, Gan.im]

/-- `ten_god_for_stem`: the Ten-God relation of `other` to `day_stem`. -/
def ten_god_for_stem (day_stem other : Gan) : String :=
  let d_e := STEM_ELEM day_stem
  let d_p := STEM_YY day_stem
  let o_e := STEM_ELEM other
  let o_p := STEM_YY other
  if o_e = d_e then (if o_p = d_p then "비견" else "겁재")
  else if o_e = ELEM_PRODUCE d_e then (if o_p = d_p then "식신" else "상관")
  else if o_e = ELEM_CONTROL d_e then (if o_p = d_p then "편재" else "정재")
  else if o_e = ELEM_OVER_ME d_e then (if o_p = d_p then "편관" else "정관")
  else if o_e = ELEM_PROD_ME d_e then (if o_p = d_p then "편인" else "정인")
  else "미정"

/-- `ten_god_for_branch`: Ten-God of a Branch via its main Stem. -/
def ten_god_for_branch (day_stem : Gan) (branch : Ji) : String :=
  ten_god_for_stem day_stem (BRANCH_MAIN branch)

/-- `all_hidden_stems`: union of the hidden Stems of the given Branches
(membership view of the Python set). -/
def all_hidden_stems (branches : List Ji) : List Gan :=
  branches.foldl (fun acc b => acc ++ BRANCH_HIDDEN b) []

/-- `is_first_half_by_terms`: `first_term_dt <= dt_solar < mid_term_dt`. -/
def is_first_half_by_terms (env : Env) (dt_solar first_term_dt mid_term_dt : PyDateTime) :
    Prop :=
  dtLe env first_term_dt dt_solar ∧ dtLt env dt_solar mid_term_dt

instance (env : Env) (a b c : PyDateTime) :
    Decidable (is_first_half_by_terms env a b c) := by
  unfold is_first_half_by_terms; infer_instance

/-! ## The pattern classifier `decide_geok` -/

/-- The classifier input record `Inputs`.  `month_stem` is `Option Gan`:
`none` models the falsy empty string that the `if ms:` test guards against. -/
structure Inputs where
  day_stem : Gan
  month_branch : Ji
  month_stem : Option Gan
  stems_visible : List Gan
  branches_visible : List Ji
  solar_dt : PyDateTime
  first_term_dt : PyDateTime
  mid_term_dt : PyDateTime
  day_from_jieqi : Int

/-- The peer-month special case of `decide_geok` (the branch taken when the
month Branch is one of 자오묘유인신사해 and its main-Stem Element equals the
day-Stem Element). -/
def geok_special (inp : Inputs) : String × String :=
  let ds := inp.day_stem
  let ds_p := STEM_YY ds
  let mb_p := STEM_YY (BRANCH_MAIN inp.month_branch)
  let off_e := ELEM_OVER_ME (STEM_ELEM ds)
  let jung_gwan := stem_with_polarity off_e (oppPol ds_p)
  let pyeon_gwan := stem_with_polarity off_e ds_p
  let same_polarity := ds_p = mb_p
  let any_jung_br := ∃ b ∈ inp.branches_visible, ten_god_for_branch ds b = "정관"
  let any_pyeon_br := ∃ b ∈ inp.branches_visible, ten_god_for_branch ds b = "편관"
  if same_polarity then
    if jung_gwan ∈ inp.stems_visible ∨ any_jung_br then
      let why := if jung_gwan ∈ inp.stems_visible
        then "정관 " ++ ganName jung_gwan ++ " 천간 투간" else "지지 정관 존재"
      ("건록격", "[특수] 월비+" ++ why ++ "->건록격")
    else ("월비격", "[특수] 월비, 정관 없음->월비격")
  else
    if pyeon_gwan ∈ inp.stems_visible ∨ any_pyeon_br then
      let why := if pyeon_gwan ∈ inp.stems_visible
        then "편관 " ++ ganName pyeon_gwan ++ " 천간 투간" else "지지 편관 존재"
      ("양인격", "[특수] 월겁+" ++ why ++ "->양인격")
    else ("월겁격", "[특수] 월겁, 편관 없음->월겁격")

/-- The 자오묘유 (cardinal) group sub-procedure of `decide_geok`. -/
def geok_jaomyoyu (inp : Inputs) : String × String :=
  let ds := inp.day_stem
  let ds_p := STEM_YY ds
  let mb_main := BRANCH_MAIN inp.month_branch
  let month_elem := STEM_ELEM mb_main
  let same_elem_vis := inp.stems_visible.filter (fun s => decide (STEM_ELEM s = month_elem))
  match same_elem_vis with
  | s0 :: _ =>
    let pick := (same_elem_vis.find? (fun s => decide (STEM_YY s ≠ ds_p))).getD s0
    let six := ten_god_for_stem ds pick
    (six ++ "격", "[자오묘유] " ++ ganName pick ++ " 투간->" ++ six ++ "격")
  | [] =>
    let six := ten_god_for_stem ds mb_main
    (six ++ "격", "[자오묘유] 투간없음->체(본기 " ++ ganName mb_main ++ ")" ++ six ++ "격")

/-- The 인신사해 (expansive) group sub-procedure of `decide_geok`. -/
def geok_insinsahae (env : Env) (inp : Inputs) : String × String :=
  let ds := inp.day_stem
  let mb := inp.month_branch
  let rokji := BRANCH_MAIN mb
  let month_elem := STEM_ELEM rokji
  let base_stems := stems_of_element month_elem
  let base_vis := inp.stems_visible.filter (fun s => decide (s ∈ base_stems))
  match base_vis with
  | pick :: _ =>
    let early : Option (String × String) :=
      if month_elem = STEM_ELEM ds then
        let off_e := ELEM_OVER_ME (STEM_ELEM ds)
        let jung_gwan := stem_with_polarity off_e (oppPol (STEM_YY ds))
        let pyeon_gwan := stem_with_polarity off_e (STEM_YY ds)
        if STEM_YY pick = STEM_YY ds then
          (if jung_gwan ∈ inp.stems_visible then
            some ("건록격", "[인신사해] " ++ ganName pick ++ "투간+정관" ++
              ganName jung_gwan ++ "->건록격")
          else none)
        else
          (if pyeon_gwan ∈ inp.stems_visible then
            some ("양인격", "[인신사해] " ++ ganName pick ++ "투간+편관" ++
              ganName pyeon_gwan ++ "->양인격")
          else none)
      else none
    match early with
    | some r => r
    | none =>
      let six := ten_god_for_stem ds pick
      (six ++ "격", "[인신사해] 록지" ++ ganName pick ++ "투간->" ++ six ++ "격")
  | [] =>
    let tri_elem := MONTH_SAMHAP mb
    let tri_grp := SAMHAP tri_elem
    let others := tri_grp.filter (fun b => decide (b ≠ mb))
    let triRes : Option (String × String) :=
      if (∀ b ∈ others, b ∈ inp.branches_visible) ∧
          is_first_half_by_terms env inp.solar_dt inp.first_term_dt inp.mid_term_dt then
        let tri_stems := stems_of_element tri_elem
        let tri_vis := tri_stems.filter (fun s => decide (s ∈ inp.stems_visible))
        match tri_vis with
        | pick :: _ =>
          if tri_elem ≠ STEM_ELEM ds then
            let six := ten_god_for_stem ds pick
            some ("중기격(" ++ six ++ ")",
              "[인신사해] 삼합+중기사령+" ++ ganName pick ++ "투간->중기격")
          else none
        | [] => none
      else none
    match triRes with
    | some r => r
    | none =>
      match inp.month_stem with
      | some ms =>
        let six := ten_god_for_stem ds ms
        (six ++ "격", "[인신사해] 록지투간없음->월간" ++ ganName ms ++ "기준" ++ six ++ "격")
      | none =>
        let six := ten_god_for_stem ds rokji
        (six ++ "격", "[인신사해] 폴백->본기(" ++ ganName rokji ++ ")" ++ six ++ "격")

/-- The 진술축미 (storage) group sub-procedure of `decide_geok`. -/
def geok_jinsulchukmi (inp : Inputs) : String × String :=
  let ds := inp.day_stem
  let ds_p := STEM_YY ds
  let mb := inp.month_branch
  let h := BRANCH_HIDDEN mb
  let mb_main_l := BRANCH_MAIN mb
  let is_front12 := inp.day_from_jieqi ≤ 11
  let tri_elem := MONTH_SAMHAP mb
  let tri_grp := SAMHAP tri_elem
  let others := tri_grp.filter (fun b => decide (b ≠ mb))
  let partners := others.filter (fun b => decide (b ∈ inp.branches_visible))
  let partRes : Option (String × String) :=
    match partners with
    | [] => none
    | _ :: _ =>
      if tri_elem = STEM_ELEM ds then
        let six := ten_god_for_stem ds mb_main_l
        some (six ++ "격", "[진술축미] 반합" ++ jiName mb ++ "+동일오행->체(본기)" ++ six ++ "격")
      else
        let tri_stems := stems_of_element tri_elem
        let tri_vis := tri_stems.filter (fun s => decide (s ∈ inp.stems_visible))
        let mid_qi :=
          match h with
          | _ :: b :: _ => b
          | [a] => a
          | [] => mb_main_l
        let mid_is_tri := STEM_ELEM mid_qi = tri_elem
        let pick :=
          match tri_vis with
          | p :: _ => p
          | [] => if mid_is_tri then mid_qi else stem_with_polarity tri_elem (oppPol ds_p)
        let six := ten_god_for_stem ds pick
        some (six ++ "격", "[진술축미] 반합+" ++ ganName pick ++ "기준" ++ six ++ "격")
  match partRes with
  | some r => r
  | none =>
    if is_front12 then
      let yeogi := h.headD mb_main_l
      let y_elem := STEM_ELEM yeogi
      let same_vis := inp.stems_visible.filter (fun s => decide (STEM_ELEM s = y_elem))
      let opp := same_vis.filter (fun s => decide (STEM_YY s ≠ ds_p))
      let pick := opp.headD (same_vis.headD yeogi)
      let six := ten_god_for_stem ds pick
      (six ++ "격", "[진술축미] 절입후12일이내->여기사령(" ++ ganName pick ++ ")" ++ six ++ "격")
    else
      let earth_vis := [Gan.mu, Gan.gi].filter (fun s => decide (s ∈ inp.stems_visible))
      let opp := earth_vis.filter (fun s => decide (STEM_YY s ≠ ds_p))
      let pick := opp.headD (earth_vis.headD mb_main_l)
      let six := ten_god_for_stem ds pick
      (six ++ "격", "[진술축미] 절입13일이후->주왕토(" ++ ganName pick ++ ")" ++ six ++ "격")

/-- The final universal fallback of `decide_geok` (line 470 of `app.py`). -/
def geok_fallback (inp : Inputs) : String × String :=
  let six := ten_god_for_stem inp.day_stem (BRANCH_MAIN inp.month_branch)
  (six ++ "격", "[폴백]->체(본기" ++ ganName (BRANCH_MAIN inp.month_branch) ++ ")" ++ six ++ "격")

/-- The 8 branches of the peer-month special-case test. -/
def peer8 : List Ji := [.ja, .o, .myo, .yu, .inn, .sin, .sa, .hae]

/-- `decide_geok`, parametrised by the value `fb` produced when the control
flow falls through all group branches (the universal fallback position). -/
def decide_geok_fb (env : Env) (inp : Inputs) (fb : String × String) : String × String :=
  let ds := inp.day_stem
  let mb := inp.month_branch
  if mb ∈ peer8 ∧ STEM_ELEM ds = STEM_ELEM (BRANCH_MAIN mb) then geok_special inp
  else
    let grp := if mb ∈ [Ji.ja, Ji.o, Ji.myo, Ji.yu] then "자오묘유"
      else if mb ∈ [Ji.inn, Ji.sin, Ji.sa, Ji.hae] then "인신사해" else "진술축미"
    if grp = "자오묘유" then geok_jaomyoyu inp
    else if grp = "인신사해" then geok_insinsahae env inp
    else if grp = "진술축미" then geok_jinsulchukmi inp
    else fb

/-- `decide_geok`: the pattern classifier. -/
def decide_geok (env : Env) (inp : Inputs) : String × String :=
  decide_geok_fb env inp (geok_fallback inp)

/-! ## Concrete evaluation environment for witnesses and counterexamples -/

/-- A concrete environment: constant Seoul offset 540 min and zero-valued
float/astronomy capabilities.  Only used to evaluate the embedded functions at
concrete inputs. -/
def env0 : Env := ⟨fun _ => 540, fun _ => 0, fun _ => 0, fun _ => 0, fun _ => 0⟩

/-- Shorthand for a naive datetime. -/
def dt0 (y m d : Int) (sod : ℚ) : PyDateTime := ⟨⟨y, m, d⟩, sod, .naive⟩

/-! ## Claim C2 — the peer-month special case -/

/-- A chart over the storage branch 진 with an earth day Stem 무: the month
Branch's main-Stem Element equals the day-Stem Element. -/
def inpC2 : Inputs :=
  { day_stem := .mu, month_branch := .jin, month_stem := some .mu,
    stems_visible := [.mu, .gyeong, .im, .mu],
    branches_visible := [.jin, .sul, .mi, .chuk],
    solar_dt := dt0 2000 4 10 0, first_term_dt := dt0 2000 4 4 0,
    mid_term_dt := dt0 2000 4 20 0, day_from_jieqi := 5 }

/-- C2 counterexample: for the storage branch 진 as month Branch and day Stem
무, the month Branch's main-Stem Element equals the day Stem's Element, yet
the classifier does not take the peer-month special case — it returns 정관격,
none of the four special outcomes.  The special case requires the month
Branch to lie in the 8-element set 자오묘유인신사해, not any of the 12. -/
theorem peer_month_special_missing_storage_branch :
    STEM_ELEM (BRANCH_MAIN inpC2.month_branch) = STEM_ELEM inpC2.day_stem ∧
    (decide_geok env0 inpC2).1 = "정관격" ∧
    (decide_geok env0 inpC2).1 ≠ "건록격" ∧ (decide_geok env0 inpC2).1 ≠ "월비격" ∧
    (decide_geok env0 inpC2).1 ≠ "양인격" ∧ (decide_geok env0 inpC2).1 ≠ "월겁격" := by
  decide

/-- C2 amended: for every chart whose month Branch lies in 자오묘유인신사해
and whose month-Branch main-Stem Element equals the day-Stem Element, the
classifier takes the peer-month special case and returns one of the four
special outcomes 건록격, 월비격, 양인격, 월겁격. -/
theorem peer_month_special_eight_branches (env : Env) (ds : Gan) (mb : Ji)
    (ms : Option Gan) (stems : List Gan) (branches : List Ji)
    (sdt fdt mdt : PyDateTime) (dfj : Int)
    (h1 : mb ∈ peer8)
    (h2 : STEM_ELEM ds = STEM_ELEM (BRANCH_MAIN mb)) :
    (decide_geok env ⟨ds, mb, ms, stems, branches, sdt, fdt, mdt, dfj⟩).1 = "건록격" ∨
    (decide_geok env ⟨ds, mb, ms, stems, branches, sdt, fdt, mdt, dfj⟩).1 = "월비격" ∨
    (decide_geok env ⟨ds, mb, ms, stems, branches, sdt, fdt, mdt, dfj⟩).1 = "양인격" ∨
    (decide_geok env ⟨ds, mb, ms, stems, branches, sdt, fdt, mdt, dfj⟩).1 = "월겁격" := by
  have hspec : decide_geok env ⟨ds, mb, ms, stems, branches, sdt, fdt, mdt, dfj⟩ =
      geok_special ⟨ds, mb, ms, stems, branches, sdt, fdt, mdt, dfj⟩ := by
    unfold decide_geok decide_geok_fb
    rw [if_pos ⟨h1, h2⟩]
  rw [hspec]
  simp only [geok_special]
  split_ifs <;> simp

/-- Witness for C2 amended at a concrete chart (day Stem 갑, month Branch 묘). -/
theorem peer_month_special_eight_branches_witness :
    (Ji.myo ∈ peer8 ∧ STEM_ELEM Gan.gap = STEM_ELEM (BRANCH_MAIN Ji.myo)) ∧
    ((decide_geok env0 ⟨.gap, .myo, some .jeong, [.gap, .jeong, .gap, .gye],
        [.myo, .ja, .inn, .yu], dt0 2000 3 10 0, dt0 2000 3 6 0, dt0 2000 3 21 0, 4⟩).1 =
        "건록격" ∨
      (decide_geok env0 ⟨.gap, .myo, some .jeong, [.gap, .jeong, .gap, .gye],
        [.myo, .ja, .inn, .yu], dt0 2000 3 10 0, dt0 2000 3 6 0, dt0 2000 3 21 0, 4⟩).1 =
        "월비격" ∨
      (decide_geok env0 ⟨.gap, .myo, some .jeong, [.gap, .jeong, .gap, .gye],
        [.myo, .ja, .inn, .yu], dt0 2000 3 10 0, dt0 2000 3 6 0, dt0 2000 3 21 0, 4⟩).1 =
        "양인격" ∨
      (decide_geok env0 ⟨.gap, .myo, some .jeong, [.gap, .jeong, .gap, .gye],
        [.myo, .ja, .inn, .yu], dt0 2000 3 10 0, dt0 2000 3 6 0, dt0 2000 3 21 0, 4⟩).1 =
        "월겁격") :=
  ⟨⟨by decide, by decide⟩,
    peer_month_special_eight_branches env0 .gap .myo (some .jeong)
      [.gap, .jeong, .gap, .gye] [.myo, .ja, .inn, .yu]
      (dt0 2000 3 10 0) (dt0 2000 3 6 0) (dt0 2000 3 21 0) 4 (by decide) (by decide)⟩

/-! ## Claim C10 — the universal fallback is unreachable -/

/-- C10: the classifier's result never depends on the universal-fallback
value: whatever is placed in the fallback position, the output equals
`decide_geok`'s.  Every input is routed to the peer-month special case or to
one of the three Branch-group sub-procedures, each of which returns on all of
its paths, so the final fallback (Ten-God of the month Branch's main Stem) is
dead code. -/
theorem geok_fallback_unreachable (env : Env) (inp : Inputs) (fb : String × String) :
    decide_geok_fb env inp fb = decide_geok env inp := by
  unfold decide_geok decide_geok_fb
  by_cases hs : inp.month_branch ∈ peer8 ∧
      STEM_ELEM inp.day_stem = STEM_ELEM (BRANCH_MAIN inp.month_branch)
  · rw [if_pos hs, if_pos hs]
  · rw [if_neg hs, if_neg hs]
    by_cases h1 : inp.month_branch ∈ [Ji.ja, Ji.o, Ji.myo, Ji.yu]
    · simp only [if_pos h1]; simp
    · by_cases h2 : inp.month_branch ∈ [Ji.inn, Ji.sin, Ji.sa, Ji.hae]
      · simp only [if_neg h1, if_pos h2]; simp
      · simp only [if_neg h1, if_neg h2]; simp

/-! ## Claim C5 — the triadic-combination gate in the 인신사해 group -/

/-- The no-stem-visible fallback of the 인신사해 group (the last two returns
of that block: month Stem if present, else the Branch's main Stem). -/
def geok_insinsahae_fallback (inp : Inputs) : String × String :=
  match inp.month_stem with
  | some ms =>
    let six := ten_god_for_stem inp.day_stem ms
    (six ++ "격", "[인신사해] 록지투간없음->월간" ++ ganName ms ++ "기준" ++ six ++ "격")
  | none =>
    let rokji := BRANCH_MAIN inp.month_branch
    let six := ten_god_for_stem inp.day_stem rokji
    (six ++ "격", "[인신사해] 폴백->본기(" ++ ganName rokji ++ ")" ++ six ++ "격")

/-- Routing: a chart with month Branch in 인신사해 whose day-Stem Element
differs from the month Branch's main-Stem Element is classified by the
인신사해 sub-procedure. -/
theorem decide_geok_tiger_route (env : Env) (ds : Gan) (mb : Ji)
    (ms : Option Gan) (stems : List Gan) (branches : List Ji)
    (sdt fdt mdt : PyDateTime) (dfj : Int)
    (hmb : mb ∈ [Ji.inn, Ji.sin, Ji.sa, Ji.hae])
    (hne : STEM_ELEM ds ≠ STEM_ELEM (BRANCH_MAIN mb)) :
    decide_geok env ⟨ds, mb, ms, stems, branches, sdt, fdt, mdt, dfj⟩ =
      geok_insinsahae env ⟨ds, mb, ms, stems, branches, sdt, fdt, mdt, dfj⟩ := by
  have hns : ¬(mb ∈ peer8 ∧ STEM_ELEM ds = STEM_ELEM (BRANCH_MAIN mb)) :=
    fun hc => hne hc.2
  have h1 : mb ∉ [Ji.ja, Ji.o, Ji.myo, Ji.yu] := by
    fin_cases hmb <;> decide
  unfold decide_geok decide_geok_fb
  rw [if_neg hns]
  simp only [if_neg h1, if_pos hmb]
  simp

/-- C5 amended: in the 인신사해 group (day-Stem Element differing from the
month Element so that the group sub-procedure runs), when no visible Stem
belongs to the month's Element the completed-triadic-combination check is
gated by the actual term instants `first_term_dt <= solar_dt < mid_term_dt`
(not by `day_from_jieqi <= 11`): outside that window the classifier falls
back to the month Stem if present, else the Branch's main Stem; inside it,
with the triad completed, a triad-Element Stem visible, and the triad Element
differing from the day-Stem Element, it returns the 중기격 outcome. -/
theorem tiger_group_triad_gate_by_terms (env : Env) (ds : Gan) (mb : Ji)
    (ms : Option Gan) (stems : List Gan) (branches : List Ji)
    (sdt fdt mdt : PyDateTime) (dfj : Int)
    (hmb : mb ∈ [Ji.inn, Ji.sin, Ji.sa, Ji.hae])
    (hne : STEM_ELEM ds ≠ STEM_ELEM (BRANCH_MAIN mb))
    (hbase : stems.filter
      (fun s => decide (s ∈ stems_of_element (STEM_ELEM (BRANCH_MAIN mb)))) = []) :
    (¬ is_first_half_by_terms env sdt fdt mdt →
      decide_geok env ⟨ds, mb, ms, stems, branches, sdt, fdt, mdt, dfj⟩ =
        geok_insinsahae_fallback ⟨ds, mb, ms, stems, branches, sdt, fdt, mdt, dfj⟩) ∧
    (∀ pick rest,
      (stems_of_element (MONTH_SAMHAP mb)).filter (fun s => decide (s ∈ stems)) =
        pick :: rest →
      (∀ b ∈ (SAMHAP (MONTH_SAMHAP mb)).filter (fun b => decide (b ≠ mb)), b ∈ branches) →
      is_first_half_by_terms env sdt fdt mdt →
      MONTH_SAMHAP mb ≠ STEM_ELEM ds →
      decide_geok env ⟨ds, mb, ms, stems, branches, sdt, fdt, mdt, dfj⟩ =
        ("중기격(" ++ ten_god_for_stem ds pick ++ ")",
          "[인신사해] 삼합+중기사령+" ++ ganName pick ++ "투간->중기격")) := by
  rw [decide_geok_tiger_route env ds mb ms stems branches sdt fdt mdt dfj hmb hne]
  simp only [geok_insinsahae]
  dsimp only
  rw [hbase]
  constructor
  · intro hnot
    rw [if_neg (fun hc => hnot hc.2)]
    simp only [geok_insinsahae_fallback]
  · intro pick rest hpick hsub hihf hneq
    rw [if_pos ⟨hsub, hihf⟩, hpick]
    dsimp only
    rw [if_pos hneq]

/-- A 인신사해-group chart: month Branch 인, day Stem 경, no wood Stem
visible, the 인오술 fire triad completed among the visible Branches, the fire
Stem 병 visible, and the birth instant 13 days after the governing term's
start but still before the mid-term instant. -/
def inpC5 : Inputs :=
  { day_stem := .gyeong, month_branch := .inn, month_stem := some .byeong,
    stems_visible := [.gyeong, .byeong, .im, .mu],
    branches_visible := [.inn, .o, .sul, .ja],
    solar_dt := dt0 2000 2 17 43200, first_term_dt := dt0 2000 2 4 0,
    mid_term_dt := dt0 2000 2 20 21600, day_from_jieqi := 13 }

unseal Rat.add Rat.mul Rat.sub Rat.inv in
/-- C5 counterexample: with `day_from_jieqi = 13 > 11` (outside the claimed
day-offset gate) but the instant still before the mid-term instant, the
classifier does apply the completed-triadic-combination check and returns the
중기격 outcome instead of the month-Stem fallback: the gate is
`first_term_dt <= solar_dt < mid_term_dt`, not `day offset <= 11`. -/
theorem tiger_group_triad_fires_beyond_day11 :
    11 < inpC5.day_from_jieqi ∧
    inpC5.stems_visible.filter
      (fun s => decide (s ∈ stems_of_element (STEM_ELEM (BRANCH_MAIN inpC5.month_branch)))) =
      [] ∧
    (decide_geok env0 inpC5).1 = "중기격(편관)" ∧
    decide_geok env0 inpC5 ≠ geok_insinsahae_fallback inpC5 := by
  decide

unseal Rat.add Rat.mul Rat.sub Rat.inv in
/-- Witness for C5 amended: a chart past the mid-term instant falls back to
the month Stem. -/
theorem tiger_group_triad_gate_by_terms_witness :
    (¬ is_first_half_by_terms env0 (dt0 2000 2 21 0) (dt0 2000 2 4 0) (dt0 2000 2 20 21600)) ∧
    decide_geok env0 ⟨.gyeong, .inn, some .byeong, [.gyeong, .byeong, .im, .mu],
        [.inn, .sul, .ja, .chuk], dt0 2000 2 21 0, dt0 2000 2 4 0, dt0 2000 2 20 21600, 17⟩ =
      geok_insinsahae_fallback ⟨.gyeong, .inn, some .byeong, [.gyeong, .byeong, .im, .mu],
        [.inn, .sul, .ja, .chuk], dt0 2000 2 21 0, dt0 2000 2 4 0, dt0 2000 2 20 21600, 17⟩ :=
  ⟨by decide,
    (tiger_group_triad_gate_by_terms env0 .gyeong .inn (some .byeong)
      [.gyeong, .byeong, .im, .mu] [.inn, .sul, .ja, .chuk]
      (dt0 2000 2 21 0) (dt0 2000 2 4 0) (dt0 2000 2 20 21600) 17
      (by decide) (by decide) (by decide)).1 (by decide)⟩

/-! ## Claim C4 — `wrap180` -/

/-- `norm360`: `x % 360.0`. -/
def norm360 (x : ℚ) : ℚ := pyFmod x 360

/-- `wrap180`: `(x + 180.0) % 360.0 - 180.0`. -/
def wrap180 (x : ℚ) : ℚ := pyFmod (x + 180) 360 - 180

/-- C4 counterexample: at `x = 180` the wrapped value is `-180`, which does
not lie in the claimed half-open interval `(-180, 180]` (and `180` itself,
congruent to `x` and inside `(-180, 180]`, is not returned). -/
theorem wrap180_at_180 :
    wrap180 180 = -180 ∧ ¬(-180 < wrap180 180 ∧ wrap180 180 ≤ 180) := by
  have h : wrap180 180 = -180 := by
    unfold wrap180 pyFmod
    norm_num
  exact ⟨h, by rw [h]; norm_num⟩

/-- C4 amended: for every rational angular difference `x`, `wrap180 x` lies in
the half-open interval `[-180, 180)` (closed at −180, open at 180 — not
`(-180, 180]` as claimed) and differs from `x` by an integer multiple of
360 degrees. -/
theorem wrap180_range_and_congruence (x : ℚ) :
    (-180 ≤ wrap180 x ∧ wrap180 x < 180) ∧
    ∃ k : ℤ, x - wrap180 x = 360 * k := by
  have hfl : ((⌊(x + 180) / 360⌋ : ℤ) : ℚ) ≤ (x + 180) / 360 := Int.floor_le _
  have hfu : (x + 180) / 360 < (⌊(x + 180) / 360⌋ : ℚ) + 1 := Int.lt_floor_add_one _
  constructor
  · unfold wrap180 pyFmod
    constructor
    · nlinarith
    · nlinarith
  · refine ⟨⌊(x + 180) / 360⌋, ?_⟩
    unfold wrap180 pyFmod
    ring

/-! ## Solar-term names and the decade-cycle start age (`app.py`) -/

/-- The 12 sectional-term names of `JIE_ORDER` plus the previous year's
final term `(전년)대설`. -/
inductive JieN where
  | ipchun | gyeongchip | cheongmyeong | ipha | mangjong | soseo
  | ipchu | baekro | hanro | ipdong | daeseol | sohan | prevDaeseol
deriving DecidableEq, Repr, BEq

/-- Insert into a sorted list, before the first element not below the new one
(keeps earlier-inserted equals in front: the stability convention of Python's
sort). -/
def insSorted (le : α → α → Bool) (x : α) : List α → List α
  | [] => [x]
  | y :: r => if le x y then x :: y :: r else y :: insSorted le x r

/-- Stable ascending sort (`list.sort`). -/
def sortStable (le : α → α → Bool) : List α → List α
  | [] => []
  | x :: r => insSorted le x (sortStable le r)

/-- `items.sort(key=lambda x: x[1])`: stable sort of (name, instant) pairs by
the instant. -/
def sortByTime (env : Env) (l : List (JieN × PyDateTime)) : List (JieN × PyDateTime) :=
  sortStable (fun p q => decide (dtLe env p.2 q.2)) l

/-- The scan loop of `next_prev_jie`: walk the sorted items, returning the
pair around the first instant strictly after `dt`. -/
def npLoop (env : Env) (dt : PyDateTime) :
    List (JieN × PyDateTime) → PyDateTime → PyDateTime × PyDateTime
  | [], prev => (prev, prev)
  | (_, t) :: r, prev => if dtLt env dt t then (prev, t) else npLoop env dt r t

/-- `next_prev_jie`: previous and next sectional-term instants around `dt`.
The empty-table case would raise `IndexError` in Python (the table always has
13 entries); it is modelled as the degenerate pair `(dt, dt)`. -/
def next_prev_jie (env : Env) (dt : PyDateTime) (jie : List (JieN × PyDateTime)) :
    PyDateTime × PyDateTime :=
  let items := sortByTime env jie
  match items with
  | [] => (dt, dt)
  | (_, t0) :: _ => npLoop env dt items t0

/-- `round_half_up`: `int(math.floor(x + 0.5))`. -/
def round_half_up (x : ℚ) : Int := ⌊x + 1 / 2⌋

/-- `dayun_start_age`: the decade-cycle starting age. -/
def dayun_start_age (env : Env) (dt : PyDateTime) (jie12 : List (JieN × PyDateTime))
    (forward : Bool) : Int :=
  let pn := next_prev_jie env dt jie12
  let delta_days :=
    if forward then diffSeconds env pn.2 dt / 86400 else diffSeconds env dt pn.1 / 86400
  max 0 (round_half_up (delta_days / 3))

/-- Modelled from the claim's words: round-half-up of (days between the birth
instant and the NEARER adjacent sectional-term boundary) divided by 3. -/
def dayun_start_age_nearer (env : Env) (dt : PyDateTime)
    (jie12 : List (JieN × PyDateTime)) : Int :=
  let pn := next_prev_jie env dt jie12
  round_half_up (min (diffSeconds env pn.2 dt) (diffSeconds env dt pn.1) / 86400 / 3)

/-- A two-term table bracketing the instant: previous boundary 2 days before,
next boundary 28 days after. -/
def jieC6 : List (JieN × PyDateTime) :=
  [(JieN.sohan, dt0 2000 1 1 0), (JieN.ipchun, dt0 2000 1 31 0)]

/-- The instant 2 days after the previous boundary. -/
def dtC6 : PyDateTime := dt0 2000 1 3 0

unseal Rat.add Rat.mul Rat.sub Rat.inv in
/-- C6 counterexample: with the previous boundary 2 days back and the next 28
days ahead, a forward cycle yields starting age 9 (days to the NEXT
boundary ÷ 3, rounded half-up), while the claimed nearer-boundary formula
yields 1. -/
theorem dayun_age_direction_counterexample :
    dayun_start_age env0 dtC6 jieC6 true = 9 ∧
    dayun_start_age_nearer env0 dtC6 jieC6 = 1 ∧
    dayun_start_age env0 dtC6 jieC6 true ≠ dayun_start_age_nearer env0 dtC6 jieC6 := by
  decide

/-! ## Sorting lemmas and the bracketing property of `next_prev_jie` -/

theorem insSorted_perm (le : α → α → Bool) (x : α) (l : List α) :
    (insSorted le x l).Perm (x :: l) := by
  induction l with
  | nil => exact List.Perm.refl _
  | cons y r IH =>
    unfold insSorted
    by_cases h : le x y
    · rw [if_pos h]
    · rw [if_neg h]
      exact (IH.cons y).trans (List.Perm.swap x y r)

theorem sortStable_perm (le : α → α → Bool) (l : List α) :
    (sortStable le l).Perm l := by
  induction l with
  | nil => exact List.Perm.refl _
  | cons x r IH =>
    exact (insSorted_perm le x (sortStable le r)).trans (IH.cons x)

theorem insSorted_pairwise (le : α → α → Bool)
    (htot : ∀ a b, le a b = true ∨ le b a = true)
    (htrans : ∀ a b c, le a b = true → le b c = true → le a c = true)
    (x : α) (l : List α) (h : List.Pairwise (fun a b => le a b = true) l) :
    List.Pairwise (fun a b => le a b = true) (insSorted le x l) := by
  induction l with
  | nil => simp [insSorted]
  | cons y r IH =>
    rw [List.pairwise_cons] at h
    obtain ⟨hy, hr⟩ := h
    unfold insSorted
    by_cases hxy : le x y
    · rw [if_pos hxy]
      refine List.pairwise_cons.mpr ⟨?_, List.pairwise_cons.mpr ⟨hy, hr⟩⟩
      intro b hb
      rcases List.mem_cons.mp hb with rfl | hb
      · exact hxy
      · exact htrans x y b hxy (hy b hb)
    · rw [if_neg hxy]
      have hyx : le y x = true := by
        rcases htot x y with h' | h'
        · exact absurd h' hxy
        · exact h'
      refine List.pairwise_cons.mpr ⟨?_, IH hr⟩
      intro b hb
      have hb' : b ∈ x :: r := (insSorted_perm le x r).mem_iff.mp hb
      rcases List.mem_cons.mp hb' with rfl | hb'
      · exact hyx
      · exact hy b hb'

theorem sortStable_pairwise (le : α → α → Bool)
    (htot : ∀ a b, le a b = true ∨ le b a = true)
    (htrans : ∀ a b c, le a b = true → le b c = true → le a c = true)
    (l : List α) :
    List.Pairwise (fun a b => le a b = true) (sortStable le l) := by
  induction l with
  | nil => exact List.Pairwise.nil
  | cons x r IH => exact insSorted_pairwise le htot htrans x (sortStable le r) IH

/-- The instant key of a (name, instant) pair. -/
def jkey (env : Env) (p : JieN × PyDateTime) : ℚ := absSeconds env p.2

instance : Std.Antisymm (fun a b : ℚ => a ≤ b) :=
  ⟨fun h h' => le_antisymm h h'⟩

theorem qmax?_eq_some_iff {xs : List ℚ} {a : ℚ} :
    xs.max? = some a ↔ a ∈ xs ∧ ∀ b ∈ xs, b ≤ a :=
  List.max?_eq_some_iff (fun a => le_refl a) (fun a b => max_choice a b)
    (fun _ _ _ => max_le_iff)

theorem qmin?_eq_some_iff {xs : List ℚ} {a : ℚ} :
    xs.min? = some a ↔ a ∈ xs ∧ ∀ b ∈ xs, a ≤ b :=
  List.min?_eq_some_iff (fun a => le_refl a) (fun a b => min_choice a b)
    (fun _ _ _ => le_min_iff)

theorem npLoop_spec (env : Env) (dt : PyDateTime) (l : List (JieN × PyDateTime)) :
    ∀ prev : PyDateTime,
    List.Pairwise (fun a b => jkey env a ≤ jkey env b) l →
    (∀ p ∈ l, absSeconds env prev ≤ jkey env p) →
    absSeconds env prev ≤ absSeconds env dt →
    (((absSeconds env prev :: l.map (jkey env)).filter
        (fun t => decide (t ≤ absSeconds env dt))).max? =
      some (absSeconds env (npLoop env dt l prev).1)) ∧
    (((l.map (jkey env)).filter (fun t => decide (absSeconds env dt < t))).min? =
        some (absSeconds env (npLoop env dt l prev).2) ∨
      (((l.map (jkey env)).filter (fun t => decide (absSeconds env dt < t))) = [] ∧
        (npLoop env dt l prev).2 = (npLoop env dt l prev).1)) := by
  induction l with
  | nil =>
    intro prev _ _ hq
    refine ⟨?_, Or.inr ⟨rfl, rfl⟩⟩
    simp only [npLoop, List.map_nil, List.filter_cons, List.filter_nil]
    rw [if_pos (by simpa using hq)]
    rfl
  | cons p r IH =>
    intro prev hpair hbound hq
    obtain ⟨n, t⟩ := p
    rw [List.pairwise_cons] at hpair
    obtain ⟨ht, hrpair⟩ := hpair
    have hk : jkey env (n, t) = absSeconds env t := rfl
    by_cases hcase : dtLt env dt t
    · have hqt : absSeconds env dt < jkey env (n, t) := hcase
      constructor
      · have hres : (npLoop env dt ((n, t) :: r) prev).1 = prev := by
          simp only [npLoop]; rw [if_pos hcase]
        rw [hres, qmax?_eq_some_iff]
        constructor
        · rw [List.mem_filter]
          exact ⟨List.mem_cons_self _ _, by simpa using hq⟩
        · intro b hb
          rw [List.mem_filter] at hb
          obtain ⟨hbmem, hble⟩ := hb
          rw [decide_eq_true_eq] at hble
          rcases List.mem_cons.mp hbmem with rfl | hbmem
          · exact le_refl _
          · exfalso
            simp only [List.map_cons, List.mem_cons] at hbmem
            rcases hbmem with rfl | hbmem
            · exact absurd hble (not_le.mpr hqt)
            · rw [List.mem_map] at hbmem
              obtain ⟨c, hc, rfl⟩ := hbmem
              exact absurd hble (not_le.mpr (lt_of_lt_of_le hqt (ht c hc)))
      · left
        have hres : (npLoop env dt ((n, t) :: r) prev).2 = t := by
          simp only [npLoop]; rw [if_pos hcase]
        rw [hres, qmin?_eq_some_iff]
        constructor
        · rw [List.mem_filter]
          refine ⟨?_, by simpa using hqt⟩
          simp only [List.map_cons, List.mem_cons]
          exact Or.inl rfl
        · intro b hb
          rw [List.mem_filter] at hb
          obtain ⟨hbmem, _⟩ := hb
          simp only [List.map_cons, List.mem_cons] at hbmem
          rcases hbmem with rfl | hbmem
          · exact le_refl _
          · rw [List.mem_map] at hbmem
            obtain ⟨c, hc, rfl⟩ := hbmem
            exact ht c hc
    · have hqt : jkey env (n, t) ≤ absSeconds env dt := not_lt.mp hcase
      have hres : npLoop env dt ((n, t) :: r) prev = npLoop env dt r t := by
        simp only [npLoop]; rw [if_neg hcase]
      obtain ⟨IH1, IH2⟩ := IH t hrpair ht hqt
      constructor
      · rw [hres, qmax?_eq_some_iff]
        rw [qmax?_eq_some_iff] at IH1
        obtain ⟨IH1mem, IH1bd⟩ := IH1
        constructor
        · rw [List.mem_filter] at IH1mem ⊢
          obtain ⟨hm, hle⟩ := IH1mem
          refine ⟨?_, hle⟩
          simp only [List.map_cons, List.mem_cons]
          rcases List.mem_cons.mp hm with h' | h'
          · exact Or.inr (Or.inl (h'.trans hk.symm))
          · exact Or.inr (Or.inr h')
        · intro b hb
          rw [List.mem_filter] at hb
          obtain ⟨hbmem, hble⟩ := hb
          rcases List.mem_cons.mp hbmem with rfl | hbmem
          · have htin : jkey env (n, t) ≤ absSeconds env (npLoop env dt r t).1 := by
              have := IH1bd (absSeconds env t) ?_
              · exact this
              · rw [List.mem_filter]
                exact ⟨List.mem_cons_self _ _, by simpa using hqt⟩
            exact le_trans (hbound (n, t) (List.mem_cons_self _ _)) htin
          · apply IH1bd
            rw [List.mem_filter]
            refine ⟨?_, hble⟩
            simp only [List.map_cons, List.mem_cons] at hbmem
            rcases hbmem with rfl | hbmem
            · exact List.mem_cons_self _ _
            · exact List.mem_cons_of_mem _ hbmem
      · rw [hres]
        have hfeq : (((n, t) :: r).map (jkey env)).filter
            (fun u => decide (absSeconds env dt < u)) =
            (r.map (jkey env)).filter (fun u => decide (absSeconds env dt < u)) := by
          simp only [List.map_cons]
          rw [List.filter_cons_of_neg]
          simpa using not_lt.mpr hqt
        rw [hfeq]
        exact IH2

theorem sortByTime_pairwise (env : Env) (jie : List (JieN × PyDateTime)) :
    List.Pairwise (fun a b => jkey env a ≤ jkey env b) (sortByTime env jie) := by
  have h := sortStable_pairwise (fun p q => decide (dtLe env p.2 q.2))
    (fun a b => by
      rcases le_total (absSeconds env a.2) (absSeconds env b.2) with h | h
      · exact Or.inl (decide_eq_true (show dtLe env a.2 b.2 from h))
      · exact Or.inr (decide_eq_true (show dtLe env b.2 a.2 from h)))
    (fun a b c hab hbc => by
      have h1 : dtLe env a.2 b.2 := of_decide_eq_true hab
      have h2 : dtLe env b.2 c.2 := of_decide_eq_true hbc
      have h1' : absSeconds env a.2 ≤ absSeconds env b.2 := h1
      have h2' : absSeconds env b.2 ≤ absSeconds env c.2 := h2
      exact decide_eq_true (show dtLe env a.2 c.2 from le_trans h1' h2'))
    jie
  exact List.Pairwise.imp (fun hab => of_decide_eq_true hab) h

theorem next_prev_jie_abs_spec (env : Env) (dt : PyDateTime)
    (jie : List (JieN × PyDateTime)) (hne : jie ≠ []) :
    absSeconds env (next_prev_jie env dt jie).1 =
      ((((sortByTime env jie).map (jkey env)).filter
        (fun t => decide (t ≤ absSeconds env dt))).max?).getD
        ((((sortByTime env jie).map (jkey env)).min?).getD (absSeconds env dt)) ∧
    absSeconds env (next_prev_jie env dt jie).2 =
      ((((sortByTime env jie).map (jkey env)).filter
        (fun t => decide (absSeconds env dt < t))).min?).getD
        ((((sortByTime env jie).map (jkey env)).max?).getD (absSeconds env dt)) := by
  have hsorted := sortByTime_pairwise env jie
  have hne' : sortByTime env jie ≠ [] := by
    intro h
    have hp := sortStable_perm (fun p q => decide (dtLe env p.2 q.2)) jie
    have hlen := hp.length_eq
    unfold sortByTime at h
    rw [h] at hlen
    exact hne (List.length_eq_zero.mp hlen.symm)
  obtain ⟨⟨n0, t0⟩, rest, hitems⟩ : ∃ p rest, sortByTime env jie = p :: rest := by
    cases hx : sortByTime env jie with
    | nil => exact absurd hx hne'
    | cons p rest => exact ⟨p, rest, rfl⟩
  have hnp : next_prev_jie env dt jie = npLoop env dt ((n0, t0) :: rest) t0 := by
    unfold next_prev_jie
    rw [hitems]
  rw [hitems] at hsorted
  rw [List.pairwise_cons] at hsorted
  obtain ⟨hhead, hrest⟩ := hsorted
  by_cases hc : dtLt env dt t0
  · have hret : npLoop env dt ((n0, t0) :: rest) t0 = (t0, t0) := by
      simp only [npLoop]; rw [if_pos hc]
    have hq0 : absSeconds env dt < jkey env (n0, t0) := hc
    have hallgt : ∀ b ∈ ((n0, t0) :: rest).map (jkey env), absSeconds env dt < b := by
      intro b hb
      simp only [List.map_cons, List.mem_cons] at hb
      rcases hb with rfl | hb
      · exact hq0
      · rw [List.mem_map] at hb
        obtain ⟨c, hcm, rfl⟩ := hb
        exact lt_of_lt_of_le hq0 (hhead c hcm)
    have hfle : (((n0, t0) :: rest).map (jkey env)).filter
        (fun t => decide (t ≤ absSeconds env dt)) = [] := by
      rw [List.filter_eq_nil_iff]
      intro b hb
      simpa using not_le.mpr (hallgt b hb)
    have hfgt : (((n0, t0) :: rest).map (jkey env)).filter
        (fun t => decide (absSeconds env dt < t)) = ((n0, t0) :: rest).map (jkey env) := by
      rw [List.filter_eq_self]
      intro b hb
      simpa using hallgt b hb
    have hmin : (((n0, t0) :: rest).map (jkey env)).min? = some (jkey env (n0, t0)) := by
      rw [qmin?_eq_some_iff]
      constructor
      · rw [List.map_cons]; exact List.mem_cons_self _ _
      · intro b hb
        simp only [List.map_cons, List.mem_cons] at hb
        rcases hb with rfl | hb
        · exact le_refl _
        · rw [List.mem_map] at hb
          obtain ⟨c, hcm, rfl⟩ := hb
          exact hhead c hcm
    rw [hnp, hret, hitems, hfle, hfgt, hmin]
    exact ⟨rfl, rfl⟩
  · have hq : absSeconds env t0 ≤ absSeconds env dt := not_lt.mp hc
    have hbound : ∀ p ∈ (n0, t0) :: rest, absSeconds env t0 ≤ jkey env p := by
      intro p hp
      rcases List.mem_cons.mp hp with rfl | hp
      · exact le_refl _
      · exact hhead p hp
    obtain ⟨A, B⟩ := npLoop_spec env dt ((n0, t0) :: rest) t0
      (List.pairwise_cons.mpr ⟨hhead, hrest⟩) hbound hq
    have hk0 : jkey env (n0, t0) ∈ (((n0, t0) :: rest).map (jkey env)).filter
        (fun t => decide (t ≤ absSeconds env dt)) := by
      rw [List.mem_filter]
      refine ⟨?_, by simpa using hq⟩
      rw [List.map_cons]
      exact List.mem_cons_self _ _
    have hA' : ((((n0, t0) :: rest).map (jkey env)).filter
        (fun t => decide (t ≤ absSeconds env dt))).max? =
        some (absSeconds env (npLoop env dt ((n0, t0) :: rest) t0).1) := by
      rw [qmax?_eq_some_iff] at A ⊢
      obtain ⟨Amem, Abd⟩ := A
      constructor
      · rw [List.mem_filter] at Amem ⊢
        obtain ⟨hm, hle⟩ := Amem
        refine ⟨?_, hle⟩
        simp only [List.map_cons, List.mem_cons]
        rcases List.mem_cons.mp hm with h' | h'
        · exact Or.inl h'
        · simp only [List.map_cons, List.mem_cons] at h'
          tauto
      · intro b hb
        apply Abd
        rw [List.mem_filter] at hb ⊢
        obtain ⟨hbm, hble⟩ := hb
        refine ⟨?_, hble⟩
        simp only [List.map_cons, List.mem_cons] at hbm
        rcases hbm with rfl | hbm
        · exact List.mem_cons_self _ _
        · exact List.mem_cons_of_mem _ (by simpa using Or.inr hbm)
    constructor
    · rw [hnp, hitems, hA']
      rfl
    · rcases B with B | ⟨Bempty, Beq⟩
      · rw [hnp, hitems, B]
        rfl
      · have hfle : (((n0, t0) :: rest).map (jkey env)).filter
            (fun t => decide (t ≤ absSeconds env dt)) =
            ((n0, t0) :: rest).map (jkey env) := by
          rw [List.filter_eq_self]
          intro b hb
          by_contra hbc
          have hbgt : absSeconds env dt < b := by
            simpa using hbc
          have : b ∈ (((n0, t0) :: rest).map (jkey env)).filter
              (fun t => decide (absSeconds env dt < t)) := by
            rw [List.mem_filter]
            exact ⟨hb, by simpa using hbgt⟩
          rw [Bempty] at this
          exact absurd this (List.not_mem_nil b)
        rw [hnp, hitems, Bempty, Beq]
        rw [hfle] at hA'
        rw [hA']
        rfl

/-- Modelled from the amended claim: the decade-cycle starting age is
max(0, round-half-up(d/3)) where d is the day count to the earliest boundary
strictly after the instant when the cycle runs forward, and since the latest
boundary at-or-before the instant when it runs backward (at the extremes the
nearest listed boundary serves for both).  The boundaries considered are
those of the (sorted) term table. -/
def dayun_start_age_directional (env : Env) (dt : PyDateTime)
    (jie12 : List (JieN × PyDateTime)) (forward : Bool) : Int :=
  let qs := (sortByTime env jie12).map (jkey env)
  let q := absSeconds env dt
  let nextq := ((qs.filter (fun t => decide (q < t))).min?).getD ((qs.max?).getD q)
  let prevq := ((qs.filter (fun t => decide (t ≤ q))).max?).getD ((qs.min?).getD q)
  let d := if forward then (nextq - q) / 86400 else (q - prevq) / 86400
  max 0 (round_half_up (d / 3))

/-- C6 amended: the decade-cycle starting age is max(0, round-half-up(d/3))
where d is the number of days between the birth instant and the
direction-dependent adjacent boundary — the next boundary for a forward
cycle, the previous one for a backward cycle — not the nearer of the two;
the boundaries considered are exactly the table's instants, and a ratio
exactly at x.5 rounds up. -/
theorem dayun_start_age_directional_spec (env : Env) (dt : PyDateTime)
    (jie12 : List (JieN × PyDateTime)) (forward : Bool) (hne : jie12 ≠ []) :
    dayun_start_age env dt jie12 forward =
      dayun_start_age_directional env dt jie12 forward ∧
    ((sortByTime env jie12).map (jkey env)).Perm (jie12.map (jkey env)) ∧
    (∀ n : Int, round_half_up ((n : ℚ) + 1 / 2) = n + 1) := by
  refine ⟨?_, List.Perm.map _ (sortStable_perm _ _), ?_⟩
  · obtain ⟨h1, h2⟩ := next_prev_jie_abs_spec env dt jie12 hne
    show max 0 (round_half_up ((if forward = true then
        (absSeconds env (next_prev_jie env dt jie12).2 - absSeconds env dt) / 86400
      else
        (absSeconds env dt - absSeconds env (next_prev_jie env dt jie12).1) / 86400) / 3)) =
      max 0 (round_half_up ((if forward = true then
        (((((sortByTime env jie12).map (jkey env)).filter
            (fun t => decide (absSeconds env dt < t))).min?).getD
          ((((sortByTime env jie12).map (jkey env)).max?).getD (absSeconds env dt)) -
          absSeconds env dt) / 86400
      else
        (absSeconds env dt -
          (((((sortByTime env jie12).map (jkey env)).filter
            (fun t => decide (t ≤ absSeconds env dt))).max?).getD
          ((((sortByTime env jie12).map (jkey env)).min?).getD (absSeconds env dt)))) / 86400) / 3))
    rw [h1, h2]
  · intro n
    unfold round_half_up
    have h : (n : ℚ) + 1 / 2 + 1 / 2 = ((n + 1 : ℤ) : ℚ) := by push_cast; ring
    rw [h, Int.floor_intCast]

unseal Rat.add Rat.mul Rat.sub Rat.inv in
/-- Witness for C6 amended at the concrete two-term table. -/
theorem dayun_start_age_directional_spec_witness :
    dayun_start_age env0 dtC6 jieC6 true =
      dayun_start_age_directional env0 dtC6 jieC6 true ∧
    ((sortByTime env0 jieC6).map (jkey env0)).Perm (jieC6.map (jkey env0)) ∧
    (∀ n : Int, round_half_up ((n : ℚ) + 1 / 2) = n + 1) :=
  dayun_start_age_directional_spec env0 dtC6 jieC6 true (by decide)

/-! ## Claim C7 — the day pillar and its 60-day period -/

/-- `CHEONGAN`, the ten Stem symbols. -/
def CHEONGAN : List String := ["갑", "을", "병", "정", "무", "기", "경", "신", "임", "계"]

/-- `JIJI`, the twelve Branch symbols. -/
def JIJI : List String := ["자", "축", "인", "묘", "진", "사", "오", "미", "신", "유", "술", "해"]

/-- `K_ANCHOR`, the sexagenary anchor constant. -/
def K_ANCHOR : Int := 49

/-- The month term `int(30.6001 * (m2 + 1))` of the Julian-day formula (the
float truncation coincides with this integer division on 4 ≤ m2+1 ≤ 15). -/
def mterm (m2 : Int) : Int := pydiv (306001 * (m2 + 1)) 10000

/-- `jdn_0h_utc`: Julian day number at 0h for a Gregorian date
(`int(365.25*(y+4716))` is exact as the integer division by 4). -/
def jdn_0h_utc (y m d : Int) : Int :=
  let y2 := if m ≤ 2 then y - 1 else y
  let m2 := if m ≤ 2 then m + 12 else m
  let A := pydiv y2 100
  let B := 2 - A + pydiv A 4
  pydiv (1461 * (y2 + 4716)) 4 + mterm m2 + d + B - 1524

/-- `pillar_day_by_2300`: the pillar date — the next calendar date when the
wall time is at or past 23:00 (`(hour, minute) >= (23, 0)`). -/
def pillar_day_by_2300 (dt : PyDateTime) : PyDate :=
  if 23 < hourOf dt ∨ (hourOf dt = 23 ∧ 0 ≤ minuteOf dt) then nextDay dt.date else dt.date

/-- The sexagenary split of a Julian day number plus anchor. -/
def day_ganji_from_jdn (j k_anchor : Int) : String × Int × Int :=
  let idx60 := pymod (j + k_anchor) 60
  let cidx := pymod idx60 10
  let jidx := pymod idx60 12
  (CHEONGAN.getD cidx.toNat "" ++ JIJI.getD jidx.toNat "", cidx, jidx)

/-- `day_ganji_solar`: the day pillar of an instant. -/
def day_ganji_solar (dt : PyDateTime) (k_anchor : Int) : String × Int × Int :=
  day_ganji_from_jdn
    (jdn_0h_utc (pillar_day_by_2300 dt).y (pillar_day_by_2300 dt).m (pillar_day_by_2300 dt).d)
    k_anchor

/-- The model of `dt + timedelta(days=n)` (time of day and tzinfo unchanged). -/
def addDaysDT (n : Nat) (t : PyDateTime) : PyDateTime := ⟨addDays n t.date, t.sod, t.tz⟩

theorem pydiv_eq (a b : Int) (hb : 0 ≤ b) : pydiv a b = a / b := Int.fdiv_eq_ediv a hb

theorem mterm_3 : mterm 3 = 122 := by decide

theorem mterm_4 : mterm 4 = 153 := by decide

theorem mterm_5 : mterm 5 = 183 := by decide

theorem mterm_6 : mterm 6 = 214 := by decide

theorem mterm_7 : mterm 7 = 244 := by decide

theorem mterm_8 : mterm 8 = 275 := by decide

theorem mterm_9 : mterm 9 = 306 := by decide

theorem mterm_10 : mterm 10 = 336 := by decide

theorem mterm_11 : mterm 11 = 367 := by decide

theorem mterm_12 : mterm 12 = 397 := by decide

theorem mterm_13 : mterm 13 = 428 := by decide

theorem mterm_14 : mterm 14 = 459 := by decide

/-- The Julian-day formula advances by exactly 1 across every valid date's
successor. -/
theorem jdn_nextDay (d : PyDate) (h : d.valid) :
    jdn_0h_utc (nextDay d).y (nextDay d).m (nextDay d).d =
      jdn_0h_utc d.y d.m d.d + 1 := by
  obtain ⟨y, m, dd⟩ := d
  obtain ⟨hy1, hy2, hm1, hm2, hd1, hd2⟩ := h
  simp only at hy1 hy2 hm1 hm2 hd1 hd2
  unfold nextDay
  by_cases hd : dd < monthLen y m
  · rw [if_pos (by simpa using hd)]
    unfold jdn_0h_utc
    split_ifs <;> ring
  · rw [if_neg (by simpa using hd)]
    have hdeq : dd = monthLen y m := le_antisymm hd2 (not_lt.mp hd)
    by_cases hm12 : m < 12
    · rw [if_pos (by simpa using hm12)]
      interval_cases m
      · -- January → February
        unfold jdn_0h_utc
        norm_num [monthLen] at hdeq ⊢
        subst hdeq
        rw [mterm_13, mterm_14]
        omega
      · -- February → March (the leap-sensitive case)
        unfold jdn_0h_utc
        norm_num [monthLen] at hdeq ⊢
        rw [mterm_3, mterm_14]
        rw [pydiv_eq _ _ (by norm_num), pydiv_eq _ _ (by norm_num),
          pydiv_eq _ _ (by norm_num), pydiv_eq _ _ (by norm_num),
          pydiv_eq _ _ (by norm_num), pydiv_eq _ _ (by norm_num)]
        have e1 : 1461 * (y + 4716) = y + 4 * (365 * y + 1722519) := by ring
        have e2 : 1461 * (y - 1 + 4716) = (y + 3) + 4 * (365 * y + 1722153) := by ring
        rw [e1, e2, Int.add_mul_ediv_left _ _ (by norm_num : (4 : Int) ≠ 0),
          Int.add_mul_ediv_left _ _ (by norm_num : (4 : Int) ≠ 0)]
        by_cases hleap : isLeapYear y
        · rw [if_pos hleap] at hdeq
          subst hdeq
          simp only [isLeapYear, Bool.and_eq_true, decide_eq_true_eq, Bool.or_eq_true,
            bne_iff_ne, ne_eq] at hleap
          omega
        · rw [if_neg hleap] at hdeq
          subst hdeq
          simp only [isLeapYear, Bool.and_eq_true, decide_eq_true_eq, Bool.or_eq_true,
            bne_iff_ne, ne_eq, not_and, not_or, not_not] at hleap
          omega
      · unfold jdn_0h_utc
        norm_num [monthLen] at hdeq ⊢
        subst hdeq
        rw [mterm_3, mterm_4]
        omega
      · unfold jdn_0h_utc
        norm_num [monthLen] at hdeq ⊢
        subst hdeq
        rw [mterm_4, mterm_5]
        omega
      · unfold jdn_0h_utc
        norm_num [monthLen] at hdeq ⊢
        subst hdeq
        rw [mterm_5, mterm_6]
        omega
      · unfold jdn_0h_utc
        norm_num [monthLen] at hdeq ⊢
        subst hdeq
        rw [mterm_6, mterm_7]
        omega
      · unfold jdn_0h_utc
        norm_num [monthLen] at hdeq ⊢
        subst hdeq
        rw [mterm_7, mterm_8]
        omega
      · unfold jdn_0h_utc
        norm_num [monthLen] at hdeq ⊢
        subst hdeq
        rw [mterm_8, mterm_9]
        omega
      · unfold jdn_0h_utc
        norm_num [monthLen] at hdeq ⊢
        subst hdeq
        rw [mterm_9, mterm_10]
        omega
      · unfold jdn_0h_utc
        norm_num [monthLen] at hdeq ⊢
        subst hdeq
        rw [mterm_10, mterm_11]
        omega
      · unfold jdn_0h_utc
        norm_num [monthLen] at hdeq ⊢
        subst hdeq
        rw [mterm_11, mterm_12]
        omega
    · have hm' : m = 12 := le_antisymm hm2 (not_lt.mp hm12)
      subst hm'
      rw [if_neg (by norm_num)]
      unfold jdn_0h_utc
      norm_num [monthLen] at hdeq ⊢
      subst hdeq
      rw [mterm_12, mterm_13]
      omega

theorem nextDay_valid (d : PyDate) (h : d.valid) (hne : d ≠ ⟨9999, 12, 31⟩) :
    (nextDay d).valid := by
  obtain ⟨y, m, dd⟩ := d
  obtain ⟨hy1, hy2, hm1, hm2, hd1, hd2⟩ := h
  simp only at hy1 hy2 hm1 hm2 hd1 hd2
  unfold nextDay
  by_cases hd : dd < monthLen y m
  · rw [if_pos (by simpa using hd)]
    unfold PyDate.valid
    dsimp only
    omega
  · rw [if_neg (by simpa using hd)]
    by_cases hm12 : m < 12
    · rw [if_pos (by simpa using hm12)]
      have hb1 := (monthLen_bounds y (m + 1)).1
      unfold PyDate.valid
      dsimp only
      omega
    · have hm' : m = 12 := le_antisymm hm2 (not_lt.mp hm12)
      subst hm'
      rw [if_neg (by norm_num)]
      have h31 : monthLen y 12 = 31 := by simp [monthLen]
      have hdd31 : dd = 31 := by omega
      have hy9999 : y ≠ 9999 := by
        intro hcontra
        subst hcontra hdd31
        exact hne rfl
      have hb1 := (monthLen_bounds (y + 1) 1).1
      unfold PyDate.valid
      dsimp only
      omega

/-- The Julian day number of a date, as a single-argument helper. -/
def jdnV (d : PyDate) : Int := jdn_0h_utc d.y d.m d.d

theorem jdnV_max : jdnV ⟨9999, 12, 31⟩ = 5373484 := by decide

theorem addDays_valid_jdn (k : Nat) (d : PyDate) (h : d.valid)
    (hbound : jdnV d + k ≤ 5373484) :
    (addDays k d).valid ∧ jdnV (addDays k d) = jdnV d + k := by
  induction k with
  | zero => exact ⟨h, by simp [addDays]⟩
  | succ n IH =>
    obtain ⟨hval, hjdn⟩ := IH (by omega)
    have hne : addDays n d ≠ ⟨9999, 12, 31⟩ := by
      intro hcontra
      rw [hcontra] at hjdn
      rw [jdnV_max] at hjdn
      omega
    refine ⟨nextDay_valid _ hval hne, ?_⟩
    show jdnV (nextDay (addDays n d)) = jdnV d + (n + 1)
    have hstep := jdn_nextDay (addDays n d) hval
    unfold jdnV at hjdn ⊢
    push_cast
    omega

theorem jdnV_le_of_y_le (d : PyDate) (h : d.valid) (hy : d.y ≤ 9997) :
    jdnV d + 61 ≤ 5373484 := by
  obtain ⟨y, m, dd⟩ := d
  obtain ⟨hy1, hy2, hm1, hm2, hd1, hd2⟩ := h
  simp only at hy1 hy2 hm1 hm2 hd1 hd2 hy
  have hdd : dd ≤ 31 := le_trans hd2 (monthLen_bounds y m).2
  unfold jdnV jdn_0h_utc mterm
  dsimp only
  rw [pydiv_eq _ _ (by norm_num), pydiv_eq _ _ (by norm_num),
    pydiv_eq _ _ (by norm_num), pydiv_eq _ _ (by norm_num)]
  by_cases hm : m ≤ 2
  · rw [if_pos hm, if_pos hm]
    have e1 : 1461 * (y - 1 + 4716) = (y + 3) + 4 * (365 * y + 1722153) := by ring
    rw [e1, Int.add_mul_ediv_left _ _ (by norm_num : (4 : Int) ≠ 0)]
    omega
  · rw [if_neg hm, if_neg hm]
    have e1 : 1461 * (y + 4716) = y + 4 * (365 * y + 1722519) := by ring
    rw [e1, Int.add_mul_ediv_left _ _ (by norm_num : (4 : Int) ≠ 0)]
    omega

theorem day_ganji_from_jdn_period (j k_anchor : Int) :
    day_ganji_from_jdn (j + 60) k_anchor = day_ganji_from_jdn j k_anchor := by
  unfold day_ganji_from_jdn pymod
  have h : (j + 60 + k_anchor).emod 60 = (j + k_anchor).emod 60 := by
    show (j + 60 + k_anchor) % 60 = (j + k_anchor) % 60
    omega
  rw [h]

set_option maxRecDepth 4000 in
/-- C7: the day pillar is periodic with period 60 days.  The bound
`t.date.y ≤ 9997` keeps the 60-day shift and the 23:00 pillar-day successor
inside the range representable by Python's `datetime` (beyond it Python
raises `OverflowError`). -/
theorem day_pillar_periodic_60 (t : PyDateTime) (k_anchor : Int)
    (hv : t.date.valid) (hy : t.date.y ≤ 9997) :
    day_ganji_solar (addDaysDT 60 t) k_anchor = day_ganji_solar t k_anchor := by
  have hb := jdnV_le_of_y_le t.date hv hy
  have h60 := addDays_valid_jdn 60 t.date hv (by omega)
  obtain ⟨hval60, hjdn60⟩ := h60
  have hhour : hourOf (addDaysDT 60 t) = hourOf t := rfl
  have hmin : minuteOf (addDaysDT 60 t) = minuteOf t := rfl
  have hcond : (23 < hourOf (addDaysDT 60 t) ∨
      (hourOf (addDaysDT 60 t) = 23 ∧ 0 ≤ minuteOf (addDaysDT 60 t))) ↔
      (23 < hourOf t ∨ (hourOf t = 23 ∧ 0 ≤ minuteOf t)) := by
    rw [hhour, hmin]
  unfold day_ganji_solar pillar_day_by_2300
  by_cases hc : 23 < hourOf t ∨ (hourOf t = 23 ∧ 0 ≤ minuteOf t)
  · rw [if_pos hc, if_pos (hcond.mpr hc)]
    have hne60 : addDays 60 t.date ≠ ⟨9999, 12, 31⟩ := by
      intro hcontra
      have := hjdn60
      rw [hcontra] at this
      rw [show jdnV ⟨9999, 12, 31⟩ = 5373484 from jdnV_max] at this
      omega
    have hstep60 := jdn_nextDay (addDays 60 t.date) hval60
    have hstep := jdn_nextDay t.date hv
    show day_ganji_from_jdn (jdn_0h_utc (nextDay (addDaysDT 60 t).date).y
        (nextDay (addDaysDT 60 t).date).m (nextDay (addDaysDT 60 t).date).d) k_anchor =
      day_ganji_from_jdn (jdn_0h_utc (nextDay t.date).y (nextDay t.date).m
        (nextDay t.date).d) k_anchor
    have heq : jdn_0h_utc (nextDay (addDaysDT 60 t).date).y (nextDay (addDaysDT 60 t).date).m
        (nextDay (addDaysDT 60 t).date).d =
        jdn_0h_utc (nextDay t.date).y (nextDay t.date).m (nextDay t.date).d + 60 := by
      show jdnV (nextDay (addDaysDT 60 t).date) = jdnV (nextDay t.date) + 60
      have h1 : jdnV (nextDay (addDaysDT 60 t).date) = jdnV (addDays 60 t.date) + 1 := hstep60
      have h2 : jdnV (nextDay t.date) = jdnV t.date + 1 := hstep
      omega
    rw [heq]
    exact day_ganji_from_jdn_period _ _
  · rw [if_neg hc, if_neg (fun hcontra => hc (hcond.mp hcontra))]
    show day_ganji_from_jdn (jdn_0h_utc (addDaysDT 60 t).date.y (addDaysDT 60 t).date.m
        (addDaysDT 60 t).date.d) k_anchor =
      day_ganji_from_jdn (jdn_0h_utc t.date.y t.date.m t.date.d) k_anchor
    have heq : jdn_0h_utc (addDaysDT 60 t).date.y (addDaysDT 60 t).date.m
        (addDaysDT 60 t).date.d = jdn_0h_utc t.date.y t.date.m t.date.d + 60 := by
      show jdnV (addDays 60 t.date) = jdnV t.date + 60
      omega
    rw [heq]
    exact day_ganji_from_jdn_period _ _

/-- Witness for C7 at 2000-01-01 noon with the production anchor. -/
theorem day_pillar_periodic_60_witness :
    day_ganji_solar (addDaysDT 60 ⟨⟨2000, 1, 1⟩, 43200, .naive⟩) K_ANCHOR =
      day_ganji_solar ⟨⟨2000, 1, 1⟩, 43200, .naive⟩ K_ANCHOR :=
  day_pillar_periodic_60 ⟨⟨2000, 1, 1⟩, 43200, .naive⟩ K_ANCHOR (by decide) (by decide)

/-! ## Claim C3 — behaviour of `find_longitude_time_utc` when bracketing fails -/

/-- The 6-hour bracketing scan of `find_longitude_time_utc`: while `scan < b`,
step forward by 21600 s and stop at the first zero or sign change of `f`.
The Python `while` loop terminates because each step strictly advances `scan`;
here `fuel` bounds the step count and is instantiated large enough
(`scanFuel`) that the `fuel = 0` case is never what ends the loop. -/
def scanBracket (env : Env) (f : PyDateTime → ℚ) (b : PyDateTime) :
    Nat → PyDateTime → ℚ → Option (PyDateTime × PyDateTime)
  | 0, _, _ => none
  | fuel + 1, scan, fa =>
    if dtLt env scan b then
      let scan2 := addSeconds 21600 scan
      let fb := f scan2
      if fa = 0 ∨ fb = 0 ∨ (fa < 0 ∧ 0 < fb) ∨ (0 < fa ∧ fb < 0) then
        some (scan, scan2)
      else
        scanBracket env f b fuel scan2 fb
    else none

/-- `a + (b - a)/2` on datetimes (`timedelta` arithmetic, exact rationals). -/
def dtMidpoint (env : Env) (a b : PyDateTime) : PyDateTime :=
  addSeconds (diffSeconds env b a / 2) a

/-- The `for _ in range(100)` bisection loop of `find_longitude_time_utc`:
if `f(mid) = 0` both endpoints collapse to `mid` (the `break`), else the
sign test decides which endpoint moves to `mid`. -/
def bisect (env : Env) (f : PyDateTime → ℚ) :
    Nat → PyDateTime × PyDateTime → PyDateTime × PyDateTime
  | 0, ab => ab
  | n + 1, (a, b) =>
    let mid := dtMidpoint env a b
    let fm := f mid
    let fa := f a
    if fm = 0 then (mid, mid)
    else if (fa ≤ 0 ∧ 0 ≤ fm) ∨ (0 ≤ fa ∧ fm ≤ 0) then bisect env f n (a, mid)
    else bisect env f n (mid, b)

/-- Fuel sufficient for the full `scan < b` traversal: the scan makes at most
`⌈(b − a)/21600⌉` forward steps before `scan < b` fails. -/
def scanFuel (env : Env) (a b : PyDateTime) : Nat :=
  (⌈diffSeconds env b a / 21600⌉).toNat + 1

/-- What `find_longitude_time_utc` does after the interval `ab` is fixed:
100 bisection steps, then the midpoint with microseconds dropped
(`(a+(b-a)/2).replace(microsecond=0)`). -/
def bisectResult (env : Env) (f : PyDateTime → ℚ) (ab : PyDateTime × PyDateTime) : PyDateTime :=
  let fin := bisect env f 100 ab
  truncSecond (dtMidpoint env fin.1 fin.2)

/-- `find_longitude_time_utc`: bracket a zero of
`f(t) = wrap180(solar_longitude_deg(t) − target)` in the ±7-day UTC window
around the seed by 6-hour scanning (`scanBracket`), falling back to the
±1-day window when no bracket is found (`Option.getD`), then bisect 100
times and return the truncated midpoint.  (`year` is accepted and ignored,
as in the source.) -/
def find_longitude_time_utc (env : Env) (year : Int) (target_deg : ℚ)
    (approx_dt_local : PyDateTime) : PyDateTime :=
  let a0 := astimezoneUtc env (addDaysRelZ (-7) approx_dt_local)
  let b0 := astimezoneUtc env (addDaysRelZ 7 approx_dt_local)
  let f : PyDateTime → ℚ := fun dt => wrap180 (env.solarLongitudeDeg dt - target_deg)
  let ab := (scanBracket env f b0 (scanFuel env a0 b0) a0 (f a0)).getD
    (astimezoneUtc env (addDaysRelZ (-1) approx_dt_local),
     astimezoneUtc env (addDaysRelZ 1 approx_dt_local))
  bisectResult env f ab

/-- A seed instant for exercising the root finder. -/
def approxC3 : PyDateTime := ⟨⟨2000, 1, 10⟩, 0, .utcTz⟩

set_option maxRecDepth 4000 in
unseal Rat.add Rat.mul Rat.sub Rat.inv in
/-- Claim C3, counterexample: with a solar-longitude provider that is
constantly 0 (so `f = wrap180(0 − 90) = −90` everywhere, and neither the
±7-day nor the ±1-day window can bracket a sign change),
`find_longitude_time_utc` still returns a definite instant — the truncated
midpoint drifts to the top of the fallback window — and `f` at that instant
is −90, not 0: the returned instant is not a crossing and no
`InternalInvariantError` (nor any other error) is signalled. -/
theorem root_finder_no_bracket_silent :
    find_longitude_time_utc env0 2000 90 approxC3 = ⟨⟨2000, 1, 10⟩, 86399, .utcTz⟩ ∧
    wrap180 (env0.solarLongitudeDeg (find_longitude_time_utc env0 2000 90 approxC3) - 90) = -90 ∧
    (-90 : ℚ) ≠ 0 := by
  decide

/-- Claim C3 (amended): when the ±7-day, 6-hour-step scan finds no sign
change of `f(t) = wrap180(solarLongitude(t) − target)`, the root finder
narrows the window to ±1 day exactly once and then unconditionally returns
the truncated midpoint of the 100-step bisection over that window
(`bisectResult`); no error is ever signalled — the function is total and
has no failure path. -/
theorem root_finder_narrows_once_no_error (env : Env) (year : Int) (target : ℚ)
    (approx : PyDateTime)
    (hnone : scanBracket env
        (fun dt => wrap180 (env.solarLongitudeDeg dt - target))
        (astimezoneUtc env (addDaysRelZ 7 approx))
        (scanFuel env (astimezoneUtc env (addDaysRelZ (-7) approx))
          (astimezoneUtc env (addDaysRelZ 7 approx)))
        (astimezoneUtc env (addDaysRelZ (-7) approx))
        (wrap180 (env.solarLongitudeDeg (astimezoneUtc env (addDaysRelZ (-7) approx)) - target)) =
        none) :
    find_longitude_time_utc env year target approx =
      bisectResult env (fun dt => wrap180 (env.solarLongitudeDeg dt - target))
        (astimezoneUtc env (addDaysRelZ (-1) approx),
         astimezoneUtc env (addDaysRelZ 1 approx)) := by
  show bisectResult env (fun dt => wrap180 (env.solarLongitudeDeg dt - target))
      ((scanBracket env (fun dt => wrap180 (env.solarLongitudeDeg dt - target))
        (astimezoneUtc env (addDaysRelZ 7 approx))
        (scanFuel env (astimezoneUtc env (addDaysRelZ (-7) approx))
          (astimezoneUtc env (addDaysRelZ 7 approx)))
        (astimezoneUtc env (addDaysRelZ (-7) approx))
        (wrap180 (env.solarLongitudeDeg (astimezoneUtc env (addDaysRelZ (-7) approx)) - target))).getD
        (astimezoneUtc env (addDaysRelZ (-1) approx),
         astimezoneUtc env (addDaysRelZ 1 approx))) =
      bisectResult env (fun dt => wrap180 (env.solarLongitudeDeg dt - target))
        (astimezoneUtc env (addDaysRelZ (-1) approx),
         astimezoneUtc env (addDaysRelZ 1 approx))
  rw [hnone]
  rfl

set_option maxRecDepth 4000 in
unseal Rat.add Rat.mul Rat.sub Rat.inv in
/-- Witness for `root_finder_narrows_once_no_error` at the constant-0
longitude provider, target 90° and the concrete seed `approxC3`. -/
theorem root_finder_narrows_once_no_error_witness :
    find_longitude_time_utc env0 2000 90 approxC3 =
      bisectResult env0 (fun dt => wrap180 (env0.solarLongitudeDeg dt - 90))
        (astimezoneUtc env0 (addDaysRelZ (-1) approxC3),
         astimezoneUtc env0 (addDaysRelZ 1 approxC3)) :=
  root_finder_narrows_once_no_error env0 2000 90 approxC3 (by decide)

/-! ## Claim C1 — the four-pillars computation and Streamlit session state -/

/-- `DEFAULT_LONGITUDE = 126.9780` (Seoul). -/
def DEFAULT_LONGITUDE : ℚ := 126.978

/-- `JIE_DEGREES`: target solar longitude of each sectional term; the
previous-year entry is computed with the 대설 degree. -/
def JIE_DEGREES : JieN → ℚ
  | .ipchun => 315 | .gyeongchip => 345 | .cheongmyeong => 15 | .ipha => 45
  | .mangjong => 75 | .soseo => 105 | .ipchu => 135 | .baekro => 165
  | .hanro => 195 | .ipdong => 225 | .daeseol => 255 | .sohan => 285
  | .prevDaeseol => 255

/-- `JIE_ORDER`, the twelve regular sectional terms in table order. -/
def JIE_ORDER : List JieN :=
  [.ipchun, .gyeongchip, .cheongmyeong, .ipha, .mangjong, .soseo,
   .ipchu, .baekro, .hanro, .ipdong, .daeseol, .sohan]

/-- `approx_guess_local`: the rough seed instants, 09:00 Seoul wall time on
the table dates ('입춘' 2/4, …, '소한' 1/6, and 12/7 of the previous year for
'(전년)대설'). -/
def approx_guess_local (year : Int) : JieN → PyDateTime
  | .ipchun => ⟨⟨year, 2, 4⟩, 32400, .seoulTz⟩
  | .gyeongchip => ⟨⟨year, 3, 6⟩, 32400, .seoulTz⟩
  | .cheongmyeong => ⟨⟨year, 4, 5⟩, 32400, .seoulTz⟩
  | .ipha => ⟨⟨year, 5, 6⟩, 32400, .seoulTz⟩
  | .mangjong => ⟨⟨year, 6, 6⟩, 32400, .seoulTz⟩
  | .soseo => ⟨⟨year, 7, 7⟩, 32400, .seoulTz⟩
  | .ipchu => ⟨⟨year, 8, 8⟩, 32400, .seoulTz⟩
  | .baekro => ⟨⟨year, 9, 8⟩, 32400, .seoulTz⟩
  | .hanro => ⟨⟨year, 10, 8⟩, 32400, .seoulTz⟩
  | .ipdong => ⟨⟨year, 11, 7⟩, 32400, .seoulTz⟩
  | .daeseol => ⟨⟨year, 12, 7⟩, 32400, .seoulTz⟩
  | .sohan => ⟨⟨year, 1, 6⟩, 32400, .seoulTz⟩
  | .prevDaeseol => ⟨⟨year - 1, 12, 7⟩, 32400, .seoulTz⟩

/-- `find_longitude_time_local`: the UTC crossing instant converted to the
historical Korean legal wall clock and tagged with `LOCAL_TZ`, microseconds
dropped. -/
def find_longitude_time_local (env : Env) (year : Int) (target : ℚ)
    (approx : PyDateTime) : PyDateTime :=
  let dt_utc := find_longitude_time_utc env year target approx
  let offset_min := get_wall_clock_utc_offset dt_utc.date
  let mid_local := addSeconds ((offset_min : ℚ) * 60) dt_utc
  truncSecond ⟨mid_local.date, mid_local.sod, .seoulTz⟩

/-- `compute_jie_times_calc`: wall-clock instants of the twelve sectional
terms of `year` plus the previous year's 대설, in dict insertion order. -/
def compute_jie_times_calc (env : Env) (year : Int) : List (JieN × PyDateTime) :=
  JIE_ORDER.map
    (fun n => (n, find_longitude_time_local env year (JIE_DEGREES n) (approx_guess_local year n)))
  ++ [(JieN.prevDaeseol,
       find_longitude_time_local env (year - 1) (JIE_DEGREES JieN.prevDaeseol)
         (approx_guess_local year JieN.prevDaeseol))]

/-- `to_solar_time`: full correction (historical standard time, daylight
saving, equation of time); a naive result is tagged with `LOCAL_TZ`. -/
def to_solar_time (env : Env) (dt_local : PyDateTime) (longitude : ℚ) : PyDateTime :=
  let result := wall_to_true_solar_time env dt_local longitude true
  if result.tz = TzTag.naive then ⟨result.date, result.sod, .seoulTz⟩ else result

/-- `MONTH_JI`, the month Branches from 인 to 축. -/
def MONTH_JI : List Ji :=
  [.inn, .myo, .jin, .sa, .o, .mi, .sin, .yu, .sul, .hae, .ja, .chuk]

/-- `JIE_TO_MONTH_JI`: governing sectional term → month Branch. -/
def JIE_TO_MONTH_JI : JieN → Ji
  | .ipchun => .inn | .gyeongchip => .myo | .cheongmyeong => .jin | .ipha => .sa
  | .mangjong => .o | .soseo => .mi | .ipchu => .sin | .baekro => .yu
  | .hanro => .sul | .ipdong => .hae | .daeseol => .ja | .sohan => .chuk
  | .prevDaeseol => .ja

/-- `month_start_gan_idx(year_gan_idx) = ((year_gan_idx % 5) * 2 + 2) % 10`. -/
def month_start_gan_idx (year_gan_idx : Int) : Int :=
  pymod (pymod year_gan_idx 5 * 2 + 2) 10

/-- `hour_branch_idx_2300`: two-hour Branch slot with the day rolled at
23:00. -/
def hour_branch_idx_2300 (dt : PyDateTime) : Int :=
  pydiv (pymod (hourOf dt * 60 + minuteOf dt - 23 * 60) 1440) 120

/-- `SIDU_START`: the five two-stem classes and the Stem that opens the 자
hour for each. -/
def SIDU_START : List (String × String × String) :=
  [("갑", "기", "갑"), ("을", "경", "병"), ("병", "신", "무"),
   ("정", "임", "경"), ("무", "계", "임")]

/-- `sidu_zi_start_gan`: first `SIDU_START` pair containing the day Stem;
`none` models the `ValueError` raised on an unknown symbol. -/
def sidu_zi_start_gan (day_gan : String) : Option String :=
  (SIDU_START.find? (fun p => day_gan == p.1 || day_gan == p.2.1)).map (fun p => p.2.2)

/-- The scan over the time-sorted term list: `last` becomes each name whose
instant has been reached, stopping at the first instant after `dt`. -/
def lastReached (env : Env) (dt : PyDateTime) :
    List (JieN × PyDateTime) → JieN → JieN
  | [], last => last
  | (n, t) :: rest, last =>
    if dtLe env t dt then lastReached env dt rest n else last

/-- The dict returned by `four_pillars_from_solar`. -/
structure FPResult where
  year : String
  month : String
  day : String
  hour : String
  y_gidx : Int
  m_gidx : Int
  m_bidx : Int
  d_cidx : Int
deriving DecidableEq, Repr

/-- The Streamlit `st.session_state` as visible to
`four_pillars_from_solar`: the two keys the function reads (absent key =
`none`, read through `.get` with the source defaults) and an arbitrary bag
of other mutable entries. -/
structure Session where
  apply_solar : Option Bool
  longitude : Option ℚ
  extra : List (String × String)

/-- `four_pillars_from_solar`: year, month, day and hour pillars of a solar
instant.  `none` models the error paths (`입춘` missing from the term dict,
unknown day Stem in `sidu_zi_start_gan`), neither of which fires on the real
tables. -/
def four_pillars_from_solar (env : Env) (sess : Session) (dt_solar : PyDateTime)
    (k_anchor : Int) : Option FPResult :=
  let jie12_wall := compute_jie_times_calc env dt_solar.date.y
  let jie_solar :=
    if sess.apply_solar.getD true then
      let lon := sess.longitude.getD DEFAULT_LONGITUDE
      jie12_wall.map (fun p => (p.1, to_solar_time env p.2 lon))
    else jie12_wall
  match jie_solar.lookup JieN.ipchun with
  | none => none
  | some ipchun =>
    let y := if dtLt env dt_solar ipchun then dt_solar.date.y - 1 else dt_solar.date.y
    let y_gidx := pymod (y - 4) 10
    let y_jidx := pymod (y - 4) 12
    let year_pillar := CHEONGAN.getD y_gidx.toNat "" ++ JIJI.getD y_jidx.toNat ""
    let order := sortByTime env jie_solar
    let last := lastReached env dt_solar order JieN.prevDaeseol
    let m_branch := JIE_TO_MONTH_JI last
    let m_bidx : Int := MONTH_JI.indexOf m_branch
    let m_gidx := pymod (month_start_gan_idx y_gidx + m_bidx) 10
    let month_pillar := CHEONGAN.getD m_gidx.toNat "" ++ jiName m_branch
    let dgs := day_ganji_solar dt_solar k_anchor
    let d_cidx := dgs.2.1
    let h_j_idx := hour_branch_idx_2300 dt_solar
    match sidu_zi_start_gan (CHEONGAN.getD d_cidx.toNat "") with
    | none => none
    | some zi_start =>
      let h_c_idx := pymod ((CHEONGAN.indexOf zi_start : Int) + h_j_idx) 10
      let hour_pillar := CHEONGAN.getD h_c_idx.toNat "" ++ JIJI.getD h_j_idx.toNat ""
      some ⟨year_pillar, month_pillar, dgs.1, hour_pillar, y_gidx, m_gidx, m_bidx, d_cidx⟩

/-- Claim C1: the four-pillars computation depends on ambient session state
only through the `apply_solar` flag and the `longitude` entry — both named
by the claim as explicit inputs.  Two runs on the same instant and anchor
whose sessions agree on those two keys return identical results, whatever
else the mutable session holds. -/
theorem four_pillars_session_noninterference (env : Env) (s1 s2 : Session)
    (dt_solar : PyDateTime) (k_anchor : Int)
    (hA : s1.apply_solar = s2.apply_solar) (hL : s1.longitude = s2.longitude) :
    four_pillars_from_solar env s1 dt_solar k_anchor =
      four_pillars_from_solar env s2 dt_solar k_anchor := by
  cases s1
  cases s2
  dsimp only at hA hL
  subst hA
  subst hL
  rfl

/-- Witness for `four_pillars_session_noninterference`: two sessions with the
same `apply_solar`/`longitude` but different other entries. -/
theorem four_pillars_session_noninterference_witness :
    four_pillars_from_solar env0 ⟨some true, some 127, [("note", "x")]⟩
      (dt0 2000 6 15 43200) K_ANCHOR =
    four_pillars_from_solar env0 ⟨some true, some 127, [("cache", "y"), ("seen", "z")]⟩
      (dt0 2000 6 15 43200) K_ANCHOR :=
  four_pillars_session_noninterference env0
    ⟨some true, some 127, [("note", "x")]⟩
    ⟨some true, some 127, [("cache", "y"), ("seen", "z")]⟩
    (dt0 2000 6 15 43200) K_ANCHOR rfl rfl
